import Mathlib

set_option maxRecDepth 8000

/-!
Verification development for the tacky-text-generator repository.

Shallow embedding of the camera calibrator (src/Scene.tsx), the animation
transform evaluator (src/animation.ts) and the GIF capture / palette /
indexing pipeline (GifCapture module).  JavaScript numbers are modelled as
exact rationals (`ℚ`) where the code only performs field arithmetic and
comparisons, and as reals (`ℝ`) where trigonometry is involved.
-/

/-! ### Camera calibrator state machine (src/Scene.tsx, CameraCalibrator)

The `calibrationRef` object holds the calibrator state.  The constant
fields of that object (`maxZ`, `stepSize`, `stepsPerCycle`, `numCycles`)
are initialised once and never written, so they are embedded as constants.
The screen-bounds accumulator used by the `bounds` phase is embedded
separately below (see `ScreenBounds`).  One call of `calStep` embeds one
iteration of the `while` loop of the `calibrating` phase; the per-frame
time slicing (10 iterations per frame in production, 1 in diagnostic mode)
only groups iterations and does not change the iteration sequence, so it
is not modelled.  The outcome of the frustum containment test for the
current sample is external input (it depends on the rendered geometry),
so it is passed to `calStep` as a boolean. -/

inductive Phase where
  | waiting
  | calibrating
  | bounds
  | done
deriving DecidableEq, Repr

structure CalState where
  phase : Phase
  currentZ : ℚ
  animationStep : ℕ
  finalZ : ℚ
deriving DecidableEq, Repr

/-- `currentZ: 3 // Start close` -/
def calInit : CalState :=
  { phase := Phase.waiting, currentZ := 3, animationStep := 0, finalZ := 3 }

/-- `maxZ: 20 // Don't go further than this` -/
def maxZ : ℚ := 20

/-- `stepSize: 0.3` -/
def stepSize : ℚ := 3 / 10

/-- `stepsPerCycle: 24 // Check this many animation positions per camera distance` -/
def stepsPerCycle : ℕ := 24

/-- `numCycles: 2 // Run through 2 full cycles to catch all edge cases` -/
def numCycles : ℕ := 2

/-- `const totalSteps = cal.stepsPerCycle * cal.numCycles` -/
def totalSteps : ℕ := stepsPerCycle * numCycles

/-- The state reached when phase 1 (`waiting`) hands over to the search:
only the phase field is written by that transition. -/
def calSearchStart : CalState := { calInit with phase := Phase.calibrating }

/-- The sample t checked at a given animation step:
`const t = (cal.animationStep % cal.stepsPerCycle) / cal.stepsPerCycle`. -/
def sampleT (animationStep : ℕ) : ℚ :=
  ((animationStep % stepsPerCycle : ℕ) : ℚ) / (stepsPerCycle : ℚ)

/-- One iteration of the `calibrating` phase loop (Scene.tsx lines 119-205).
`overflow` is the result of the frustum containment test at the current
sample. -/
def calStep (s : CalState) (overflow : Bool) : CalState :=
  if s.phase = Phase.calibrating then
    if overflow then
      -- Back off camera and restart animation check
      let z := s.currentZ + stepSize
      if z ≥ maxZ then
        -- Max reached, move to bounds calculation phase (frozen at the cap)
        { s with currentZ := z, animationStep := 0,
                 phase := Phase.bounds, finalZ := maxZ }
      else
        { s with currentZ := z, animationStep := 0 }
    else
      -- This step passed, move to next
      let n := s.animationStep + 1
      if n ≥ totalSteps then
        -- All steps across all cycles passed
        { s with animationStep := 0, phase := Phase.bounds, finalZ := s.currentZ }
      else
        { s with animationStep := n }
  else s

/-- Run the calibrating loop over a finite list of containment results. -/
def calRunList (s : CalState) (bs : List Bool) : CalState :=
  bs.foldl calStep s

/-- Run the calibrating loop for `n` iterations against a stream of
containment results. -/
def calIter (oracle : ℕ → Bool) : ℕ → CalState → CalState
  | 0, s => s
  | n + 1, s => calIter (fun k => oracle (k + 1)) n (calStep s (oracle 0))

/-- Number of overflow events still possible before the trial distance
reaches the hard cap. -/
def capSteps (z : ℚ) : ℕ := (⌈(maxZ - z) / stepSize⌉).toNat

/-- Termination measure for the calibrating phase. -/
def calMeasure (s : CalState) : ℕ :=
  totalSteps * capSteps s.currentZ + (totalSteps - s.animationStep)

/-- A concrete searching trace: two overflow events, then a full passing
sweep of `totalSteps` samples. -/
def c1Trace : List Bool :=
  [false, true, false, false, true] ++ List.replicate totalSteps false

/-! ### Text configuration (src/types.ts)

Only the fields read by the embedded functions are modelled: the style,
camera and light sections of `TextConfig` are never read by the animation
transform or by the calibrator arithmetic embedded here. -/

inductive AnimationType where
  | spinY
  | spinX
  | spinZ
  | swingY
  | swingX
  | swingZ
  | bounce
  | pulse
  | wave
deriving DecidableEq, Repr

/-- `initialAngle: { x: number; y: number }` -/
structure InitialAngle where
  x : ℝ
  y : ℝ

structure AnimationConfig where
  type : AnimationType
  amplitude : ℝ
  initialAngle : InitialAngle

structure TextConfig where
  animation : AnimationConfig

/-! ### Screen-bounds accumulation and final padding (src/Scene.tsx,
CameraCalibrator phase 3, lines 209-285)

The projection of mesh vertices through the camera is performed by the
external renderer; the projected screen-space points are therefore inputs
here.  The accumulator starts from `{ minX: 1, maxX: 0, minY: 1, maxY: 0 }`
and takes a running min/max per axis over all sampled points of the sweep. -/

structure ScreenBounds where
  minX : ℝ
  maxX : ℝ
  minY : ℝ
  maxY : ℝ

/-- `cal.screenBounds = { minX: 1, maxX: 0, minY: 1, maxY: 0 }` -/
def boundsReset : ScreenBounds := ⟨1, 0, 1, 0⟩

/-- One vertex update of the bounds accumulator (lines 248-251). -/
noncomputable def accumPoint (b : ScreenBounds) (p : ℝ × ℝ) : ScreenBounds :=
  ⟨min b.minX p.1, max b.maxX p.1, min b.minY p.2, max b.maxY p.2⟩

/-- The accumulator after sweeping a list of projected screen points. -/
noncomputable def accumBounds (ps : List (ℝ × ℝ)) : ScreenBounds :=
  ps.foldl accumPoint boundsReset

/-- The final padded and clamped bounds delivered on reaching `done`
(lines 264-278). -/
noncomputable def finalBounds (config : TextConfig) (acc : ScreenBounds) :
    ScreenBounds :=
  let basePadding : ℝ := 2 / 100
  let isWaveAnimation := config.animation.type = AnimationType.wave
  let waveExtraPadding : ℝ :=
    if isWaveAnimation then config.animation.amplitude * (15 / 100) else 0
  ⟨max 0 (acc.minX - basePadding),
   min 1 (acc.maxX + basePadding),
   max 0 (acc.minY - basePadding - waveExtraPadding),
   min 1 (acc.maxY + basePadding + waveExtraPadding)⟩

/-! ### Flip offset for spin animations (src/animation.ts, getFlipOffset)

JavaScript `%` is the remainder truncated towards zero; the code fixes a
negative remainder up by one modulus.  `normAngle` is the mathematical
normalisation to [0, 2π) that the spec describes; the two are proved equal
below. -/

/-- JavaScript truncation towards zero. -/
noncomputable def jsTrunc (x : ℝ) : ℤ := if 0 ≤ x then ⌊x⌋ else ⌈x⌉

/-- JavaScript `a % m` (sign follows the dividend). -/
noncomputable def jsMod (a m : ℝ) : ℝ := a - m * jsTrunc (a / m)

/-- The cumulative angle normalised to [0, 2π), as the spec words it. -/
noncomputable def normAngle (x : ℝ) : ℝ :=
  x - Real.pi * 2 * ⌊x / (Real.pi * 2)⌋

/-- Embeds `getFlipOffset` (animation.ts lines 18-33). -/
noncomputable def getFlipOffset (animationAngle initialAngle : ℝ) : ℝ :=
  let TWO_PI := Real.pi * 2
  let HALF_PI := Real.pi / 2
  let totalAngle0 := jsMod (animationAngle + initialAngle) TWO_PI
  let totalAngle := if totalAngle0 < 0 then totalAngle0 + TWO_PI else totalAngle0
  if HALF_PI < totalAngle ∧ totalAngle < HALF_PI * 3 then Real.pi else 0

/-! ### Lemmas about the calibrator -/

lemma calStep_of_not_calibrating {s : CalState} (b : Bool)
    (h : ¬ s.phase = Phase.calibrating) : calStep s b = s := by
  simp [calStep, h]

lemma calRunList_phase_rev {bs : List Bool} {s : CalState}
    (h : (calRunList s bs).phase = Phase.calibrating) :
    s.phase = Phase.calibrating := by
  induction bs generalizing s with
  | nil => exact h
  | cons b rest ih =>
    have h' : (calRunList (calStep s b) rest).phase = Phase.calibrating := h
    have hstep := ih h'
    by_cases hc : s.phase = Phase.calibrating
    · exact hc
    · rw [calStep_of_not_calibrating b hc] at hstep
      exact hstep

lemma calStep_overflow_currentZ {s : CalState}
    (hs : s.phase = Phase.calibrating) :
    (calStep s true).currentZ = s.currentZ + stepSize := by
  by_cases hcap : s.currentZ + stepSize ≥ maxZ <;>
    simp [calStep, hs, hcap]

lemma calStep_overflow_animationStep {s : CalState}
    (hs : s.phase = Phase.calibrating) :
    (calStep s true).animationStep = 0 := by
  by_cases hcap : s.currentZ + stepSize ≥ maxZ <;>
    simp [calStep, hs, hcap]

lemma calStep_pass_currentZ {s : CalState} :
    (calStep s false).currentZ = s.currentZ := by
  by_cases hs : s.phase = Phase.calibrating
  · by_cases hn : s.animationStep + 1 ≥ totalSteps <;>
      simp [calStep, hs, hn]
  · simp [calStep, hs]

lemma calRunList_currentZ {bs : List Bool} {s : CalState}
    (hs : s.phase = Phase.calibrating)
    (h : (calRunList s bs).phase = Phase.calibrating) :
    (calRunList s bs).currentZ = s.currentZ + stepSize * (bs.count true : ℚ) := by
  induction bs generalizing s with
  | nil => simp [calRunList]
  | cons b rest ih =>
    have h' : (calRunList (calStep s b) rest).phase = Phase.calibrating := h
    have hmid : (calStep s b).phase = Phase.calibrating := calRunList_phase_rev h'
    have hrec := ih hmid h'
    have hrun : calRunList s (b :: rest) = calRunList (calStep s b) rest := rfl
    rw [hrun, hrec]
    cases b with
    | true =>
      rw [calStep_overflow_currentZ hs]
      have : (List.count true (true :: rest) : ℚ)
          = (List.count true rest : ℚ) + 1 := by
        simp [List.count_cons]
      simp only [this]
      ring
    | false =>
      rw [calStep_pass_currentZ]
      have : (List.count true (false :: rest) : ℚ) = (List.count true rest : ℚ) := by
        simp [List.count_cons]
      rw [this]

lemma capSteps_pos {z : ℚ} (h : z < maxZ) : 1 ≤ capSteps z := by
  have hstep : (0 : ℚ) < stepSize := by norm_num [stepSize]
  have hpos : 0 < (maxZ - z) / stepSize := by
    apply div_pos _ hstep
    linarith
  have hceil : 1 ≤ ⌈(maxZ - z) / stepSize⌉ := by
    exact Int.ceil_pos.mpr hpos
  unfold capSteps
  omega

lemma capSteps_succ {z : ℚ} (h : z + stepSize < maxZ) :
    capSteps z = capSteps (z + stepSize) + 1 := by
  have hstep : (0 : ℚ) < stepSize := by norm_num [stepSize]
  have harg : (maxZ - z) / stepSize = (maxZ - (z + stepSize)) / stepSize + 1 := by
    field_simp
    ring
  have hceil : ⌈(maxZ - z) / stepSize⌉ = ⌈(maxZ - (z + stepSize)) / stepSize⌉ + 1 := by
    rw [harg, Int.ceil_add_one]
  have hpos : 1 ≤ ⌈(maxZ - (z + stepSize)) / stepSize⌉ := by
    apply Int.ceil_pos.mpr
    apply div_pos _ hstep
    linarith
  unfold capSteps
  rw [hceil]
  omega

/-- From any calibrating state with a legal animation step counter, the
search reaches the `bounds` phase within finitely many iterations, for
every possible sequence of containment results. -/
lemma cal_reaches_bounds :
    ∀ (N : ℕ) (s : CalState) (oracle : ℕ → Bool), calMeasure s ≤ N →
      s.phase = Phase.calibrating → s.animationStep < totalSteps →
      ∃ n, (calIter oracle n s).phase = Phase.bounds := by
  intro N
  induction N with
  | zero =>
    intro s oracle hm hs ha
    exfalso
    have : 1 ≤ totalSteps - s.animationStep := by omega
    have : 1 ≤ calMeasure s := by
      unfold calMeasure
      omega
    omega
  | succ N ih =>
    intro s oracle hm hs ha
    set s' := calStep s (oracle 0) with hs'
    by_cases hb : s'.phase = Phase.bounds
    · exact ⟨1, by simpa [calIter] using hb⟩
    · -- the step stayed in the calibrating phase; the measure decreased
      have hcal : s'.phase = Phase.calibrating := by
        cases hor : oracle 0 with
        | true =>
          by_cases hcap : s.currentZ + stepSize ≥ maxZ
          · exfalso
            apply hb
            simp [hs', hor, calStep, hs, hcap]
          · simp [hs', hor, calStep, hs, hcap]
        | false =>
          by_cases hn : s.animationStep + 1 ≥ totalSteps
          · exfalso
            apply hb
            simp [hs', hor, calStep, hs, hn]
          · simp [hs', hor, calStep, hs, hn]
      have hkey : calMeasure s' ≤ N ∧ s'.animationStep < totalSteps := by
        cases hor : oracle 0 with
        | true =>
          by_cases hcap : s.currentZ + stepSize ≥ maxZ
          · exfalso
            apply hb
            simp [hs', hor, calStep, hs, hcap]
          · have hzlt : s.currentZ + stepSize < maxZ := lt_of_not_ge hcap
            have hfields : s'.currentZ = s.currentZ + stepSize
                ∧ s'.animationStep = 0 := by
              constructor <;> simp [hs', hor, calStep, hs, hcap]
            have hz : s.currentZ < maxZ := by
              have hstep : (0 : ℚ) < stepSize := by norm_num [stepSize]
              linarith
            have hsucc := capSteps_succ hzlt
            have hts : totalSteps = 48 := by decide
            have ha' : s.animationStep < 48 := by omega
            have hmeas : calMeasure s' < calMeasure s := by
              unfold calMeasure
              rw [hfields.1, hfields.2, hsucc, hts]
              omega
            constructor
            · omega
            · rw [hfields.2]; decide
        | false =>
          by_cases hn : s.animationStep + 1 ≥ totalSteps
          · exfalso
            apply hb
            simp [hs', hor, calStep, hs, hn]
          · have hfields : s'.currentZ = s.currentZ
                ∧ s'.animationStep = s.animationStep + 1 := by
              constructor <;> simp [hs', hor, calStep, hs, hn]
            have hmeas : calMeasure s' < calMeasure s := by
              unfold calMeasure
              rw [hfields.1, hfields.2]
              omega
            constructor
            · omega
            · omega
      obtain ⟨n, hn⟩ := ih s' (fun k => oracle (k + 1)) hkey.1 hcal hkey.2
      exact ⟨n + 1, by simpa [calIter] using hn⟩

/-! ### Claim theorems C1 and C2 -/

/-- Claim C1: during the searching phase the trial camera distance starts
at 3 units with a fixed step of 0.3 units; every overflow event increases
the distance by the step and restarts the sample sweep at the config's
first t (animation step 0, i.e. t = 0); after exactly two overflow events
the candidate distance before the passing sweep is 3.6, and a subsequent
full passing sweep freezes that distance as the final one. -/
theorem c1_searching_distance_step (bs : List Bool) (s : CalState)
    (hrun : (calRunList calSearchStart bs).phase = Phase.calibrating)
    (hs : s.phase = Phase.calibrating) :
    calSearchStart.currentZ = 3
    ∧ stepSize = 3 / 10
    ∧ (calRunList calSearchStart bs).currentZ
        = 3 + (3 / 10) * (bs.count true : ℚ)
    ∧ (calStep s true).currentZ = s.currentZ + 3 / 10
    ∧ (calStep s true).animationStep = 0
    ∧ sampleT (calStep s true).animationStep = 0
    ∧ (calRunList calSearchStart c1Trace).phase = Phase.bounds
    ∧ (calRunList calSearchStart c1Trace).finalZ = 18 / 5 := by
  refine ⟨rfl, rfl, ?_, ?_, ?_, ?_, ?_, ?_⟩
  · have h := @calRunList_currentZ bs calSearchStart rfl hrun
    simpa [calSearchStart, calInit, stepSize] using h
  · simpa [stepSize] using calStep_overflow_currentZ hs
  · exact calStep_overflow_animationStep hs
  · rw [calStep_overflow_animationStep hs]
    simp [sampleT]
  · norm_num [calRunList, c1Trace, calStep, stepSize, maxZ, totalSteps,
      stepsPerCycle, numCycles, calSearchStart, calInit, List.replicate]
  · norm_num [calRunList, c1Trace, calStep, stepSize, maxZ, totalSteps,
      stepsPerCycle, numCycles, calSearchStart, calInit, List.replicate]

theorem c1_searching_distance_step_witness :
    ((calRunList calSearchStart [true, true]).phase = Phase.calibrating
      ∧ calSearchStart.phase = Phase.calibrating)
    ∧ ((calRunList calSearchStart [true, true]).currentZ
          = 3 + (3 / 10) * (([true, true] : List Bool).count true : ℚ)
        ∧ (calStep calSearchStart true).currentZ
            = calSearchStart.currentZ + 3 / 10) := by
  have hrun : (calRunList calSearchStart [true, true]).phase = Phase.calibrating := by
    norm_num [calRunList, calStep, stepSize, maxZ, totalSteps,
      stepsPerCycle, numCycles, calSearchStart, calInit]
  have h := c1_searching_distance_step [true, true] calSearchStart hrun rfl
  exact ⟨⟨hrun, rfl⟩, h.2.2.1, h.2.2.2.1⟩

/-- Claim C2: the searching phase always terminates.  If an overflow event
pushes the trial distance to the 20-unit hard cap, the final distance is
frozen at the cap (exactly 20) and the machine proceeds to the bounds
phase; and from any calibrating state, for every possible sequence of
containment results, the bounds phase is reached after finitely many
steps. -/
theorem c2_searching_terminates (s s2 : CalState) (oracle : ℕ → Bool)
    (hs : s.phase = Phase.calibrating) (ha : s.animationStep < totalSteps)
    (h2 : s2.phase = Phase.calibrating) (hcap : maxZ ≤ s2.currentZ + stepSize) :
    (∃ n, (calIter oracle n s).phase = Phase.bounds)
    ∧ (calStep s2 true).phase = Phase.bounds
    ∧ (calStep s2 true).finalZ = maxZ
    ∧ maxZ = 20 := by
  refine ⟨?_, ?_, ?_, rfl⟩
  · exact cal_reaches_bounds (calMeasure s) s oracle le_rfl hs ha
  · simp [calStep, h2, ge_iff_le, hcap]
  · simp [calStep, h2, ge_iff_le, hcap]

theorem c2_searching_terminates_witness :
    (calSearchStart.phase = Phase.calibrating
      ∧ calSearchStart.animationStep < totalSteps
      ∧ ({ calSearchStart with currentZ := 20 } : CalState).phase
          = Phase.calibrating
      ∧ maxZ ≤ ({ calSearchStart with currentZ := 20 } : CalState).currentZ
          + stepSize)
    ∧ ((∃ n, (calIter (fun _ => true) n calSearchStart).phase = Phase.bounds)
        ∧ (calStep { calSearchStart with currentZ := 20 } true).finalZ = maxZ) := by
  have h := c2_searching_terminates calSearchStart
    { calSearchStart with currentZ := 20 } (fun _ => true)
    rfl (by decide) rfl (by norm_num [maxZ, stepSize, calSearchStart, calInit])
  exact ⟨⟨rfl, by decide, rfl,
    by norm_num [maxZ, stepSize, calSearchStart, calInit]⟩, h.1, h.2.2.1⟩

/-! ### Quaternions and the animation transform (src/animation.ts,
applyAnimationTransform)

Quaternions follow three.js conventions: components (x, y, z, w), Euler
conversion in 'XYZ' order, Hamilton product for `multiplyQuaternions`.
A three.js group's transform state is its orientation quaternion, its
position and its scale (setting `rotation` to (0,0,0) also resets the
quaternion to the identity, since the two representations are kept in
sync). -/

structure Quat where
  x : ℝ
  y : ℝ
  z : ℝ
  w : ℝ

/-- The identity quaternion (`new THREE.Quaternion()`). -/
noncomputable def qid : Quat := ⟨0, 0, 0, 1⟩

/-- Componentwise negation; `q` and `qneg q` represent the same rotation. -/
noncomputable def qneg (q : Quat) : Quat := ⟨-q.x, -q.y, -q.z, -q.w⟩

/-- three.js `Quaternion.multiplyQuaternions(a, b)` (Hamilton product). -/
noncomputable def qmul (a b : Quat) : Quat :=
  ⟨a.x * b.w + a.w * b.x + a.y * b.z - a.z * b.y,
   a.y * b.w + a.w * b.y + a.z * b.x - a.x * b.z,
   a.z * b.w + a.w * b.z + a.x * b.y - a.y * b.x,
   a.w * b.w - a.x * b.x - a.y * b.y - a.z * b.z⟩

/-- three.js `Quaternion.setFromEuler(new THREE.Euler(ex, ey, ez, 'XYZ'))`. -/
noncomputable def setFromEulerXYZ (ex ey ez : ℝ) : Quat :=
  let c1 := Real.cos (ex / 2)
  let c2 := Real.cos (ey / 2)
  let c3 := Real.cos (ez / 2)
  let s1 := Real.sin (ex / 2)
  let s2 := Real.sin (ey / 2)
  let s3 := Real.sin (ez / 2)
  ⟨s1 * c2 * c3 + c1 * s2 * s3,
   c1 * s2 * c3 - s1 * c2 * s3,
   c1 * c2 * s3 + s1 * s2 * c3,
   c1 * c2 * c3 - s1 * s2 * s3⟩

structure Vec3 where
  x : ℝ
  y : ℝ
  z : ℝ

/-- The transform state of the text group touched by the animation. -/
structure GroupState where
  quaternion : Quat
  position : Vec3
  scale : Vec3

/-- `['spinY','spinX','spinZ','swingY','swingX','swingZ'].includes(animationType)` -/
def isRotatedSpaceAnimation : AnimationType → Bool
  | AnimationType.spinY => true
  | AnimationType.spinX => true
  | AnimationType.spinZ => true
  | AnimationType.swingY => true
  | AnimationType.swingX => true
  | AnimationType.swingZ => true
  | _ => false

/-- Embeds `applyAnimationTransform` (animation.ts lines 52-152) as a
transformer of the group's transform state. -/
noncomputable def applyAnimationTransform (group : GroupState)
    (config : TextConfig) (t : ℝ) : GroupState :=
  -- Reset transforms: rotation.set(0,0,0); position.set(0,0,0); scale.setScalar(1)
  let group : GroupState := { group with
    quaternion := qid, position := ⟨0, 0, 0⟩, scale := ⟨1, 1, 1⟩ }
  let amp := config.animation.amplitude
  let initialAngle := config.animation.initialAngle
  let TWO_PI := Real.pi * 2
  let animationType := config.animation.type
  if isRotatedSpaceAnimation animationType then
    -- Spin and swing animations: animate first, then apply initial angle
    let animQuat : Quat :=
      match animationType with
      | AnimationType.spinY =>
        let animAngle := t * TWO_PI
        let flipOffset := getFlipOffset animAngle initialAngle.y
        setFromEulerXYZ 0 (animAngle + flipOffset) 0
      | AnimationType.spinX =>
        let animAngle := t * TWO_PI
        let flipOffset := getFlipOffset animAngle initialAngle.x
        setFromEulerXYZ (animAngle + flipOffset) 0 0
      | AnimationType.spinZ =>
        setFromEulerXYZ 0 0 (t * TWO_PI)
      | AnimationType.swingY =>
        setFromEulerXYZ 0 (Real.sin (t * TWO_PI) * amp) 0
      | AnimationType.swingX =>
        setFromEulerXYZ (Real.sin (t * TWO_PI) * amp) 0 0
      | AnimationType.swingZ =>
        setFromEulerXYZ 0 0 (Real.sin (t * TWO_PI) * amp)
      | _ => qid  -- not reachable for rotated-space kinds
    let initialQuat := setFromEulerXYZ initialAngle.x initialAngle.y 0
    -- finalQuat = initialQuat * animQuat
    let finalQuat := qmul initialQuat animQuat
    { group with quaternion := finalQuat }
  else
    -- Bounce and pulse: apply initial angle first, animate in viewer space
    let initialQuat := setFromEulerXYZ initialAngle.x initialAngle.y 0
    let group : GroupState :=
      match animationType with
      | AnimationType.bounce =>
        { group with position :=
          ⟨group.position.x, |Real.sin (t * TWO_PI)| * amp, group.position.z⟩ }
      | AnimationType.pulse =>
        let scale := 1 + Real.sin (t * TWO_PI) * amp
        { group with scale := ⟨scale, scale, scale⟩ }
      | _ => group  -- wave: group-level transform only applies initial angle
    { group with quaternion := initialQuat }

/-! ### GIF capture geometry and frame schedule (GifCapture module,
captureGif)

The capture pipeline's arithmetic is over JavaScript numbers; the division
`srcW / srcH` can hit 0/0 (NaN) or x/0 (±Infinity) when the crop rectangle
is degenerate, so the affected intermediate values are modelled by `JSNum`.
The pixel read-back itself is performed by the browser canvas API, whose
standardised behaviour is part of the model: `drawImage` throws an
InvalidStateError when the source canvas has a zero dimension, and
`getImageData` throws an IndexSizeError when the requested rectangle's
width or height converts to zero (NaN and ±Infinity convert to zero).
A captured frame's pixel content comes from the external renderer; frames
are therefore represented by their target t value. -/

namespace Gif

/-- The crop rectangle source, `ScreenBounds` from Scene.tsx, as consumed
by the capture code. -/
structure ScreenBounds where
  minX : ℚ
  maxX : ℚ
  minY : ℚ
  maxY : ℚ
deriving DecidableEq, Repr

/-- The source canvas with its pixel dimensions. -/
structure CanvasEl where
  width : ℕ
  height : ℕ
deriving DecidableEq, Repr

/-- The fields of `GifCaptureOptions` read by the embedded capture
geometry and schedule. -/
structure GifCaptureOptions where
  width : ℕ
  height : ℕ
  cycleDuration : ℚ
  screenBounds : Option ScreenBounds
deriving DecidableEq, Repr

/-- `const TARGET_FPS = 12` -/
def TARGET_FPS : ℚ := 12

/-- `const targetFrameCount = Math.round(cycleDuration * TARGET_FPS)` -/
def targetFrameCount (cycleDuration : ℚ) : ℤ :=
  round (cycleDuration * TARGET_FPS)

/-- `const frameDelay = Math.round(100 / TARGET_FPS)` -/
def frameDelay : ℤ := round ((100 : ℚ) / TARGET_FPS)

/-- A JavaScript number that may be NaN or infinite. -/
inductive JSNum where
  | fin (q : ℚ)
  | inf
  | negInf
  | nan
deriving DecidableEq, Repr

/-- JavaScript division of two finite numbers. -/
def jsDiv (a b : ℚ) : JSNum :=
  if b = 0 then
    if a = 0 then JSNum.nan
    else if 0 < a then JSNum.inf
    else JSNum.negInf
  else JSNum.fin (a / b)

/-- JavaScript `>` on possibly non-finite numbers (false on NaN). -/
def jsGT : JSNum → JSNum → Bool
  | JSNum.nan, _ => false
  | _, JSNum.nan => false
  | JSNum.inf, JSNum.inf => false
  | JSNum.inf, _ => true
  | JSNum.negInf, _ => false
  | JSNum.fin _, JSNum.inf => false
  | JSNum.fin _, JSNum.negInf => true
  | JSNum.fin a, JSNum.fin b => b < a

/-- JavaScript multiplication of a finite number by a possibly non-finite
one. -/
def jsMulNum (q : ℚ) : JSNum → JSNum
  | JSNum.fin a => JSNum.fin (q * a)
  | JSNum.inf =>
    if 0 < q then JSNum.inf else if q < 0 then JSNum.negInf else JSNum.nan
  | JSNum.negInf =>
    if 0 < q then JSNum.negInf else if q < 0 then JSNum.inf else JSNum.nan
  | JSNum.nan => JSNum.nan

/-- JavaScript division of a finite number by a possibly non-finite one. -/
def jsDivNum (q : ℚ) : JSNum → JSNum
  | JSNum.fin a => jsDiv q a
  | JSNum.inf => JSNum.fin 0
  | JSNum.negInf => JSNum.fin 0
  | JSNum.nan => JSNum.nan

/-- `Math.round`, identity on NaN and infinities. -/
def jsRoundNum : JSNum → JSNum
  | JSNum.fin q => JSNum.fin ((round q : ℤ) : ℚ)
  | x => x

/-- Whether the value converts to a zero size in the canvas API (WebIDL
integer conversion maps NaN and ±Infinity to 0). -/
def zeroSize : JSNum → Bool
  | JSNum.fin q => q = 0
  | _ => true

/-- `const srcX = screenBounds ? Math.floor(screenBounds.minX * canvas.width) : 0` -/
def srcX (canvas : CanvasEl) : Option ScreenBounds → ℤ
  | some b => ⌊b.minX * (canvas.width : ℚ)⌋
  | none => 0

/-- `const srcY = screenBounds ? Math.floor(screenBounds.minY * canvas.height) : 0` -/
def srcY (canvas : CanvasEl) : Option ScreenBounds → ℤ
  | some b => ⌊b.minY * (canvas.height : ℚ)⌋
  | none => 0

/-- `const srcW = screenBounds ? Math.ceil((maxX - minX) * canvas.width) : canvas.width` -/
def srcW (canvas : CanvasEl) : Option ScreenBounds → ℤ
  | some b => ⌈(b.maxX - b.minX) * (canvas.width : ℚ)⌉
  | none => (canvas.width : ℤ)

/-- `const srcH = screenBounds ? Math.ceil((maxY - minY) * canvas.height) : canvas.height` -/
def srcH (canvas : CanvasEl) : Option ScreenBounds → ℤ
  | some b => ⌈(b.maxY - b.minY) * (canvas.height : ℚ)⌉
  | none => (canvas.height : ℤ)

/-- The fit-inside output dimensions (outputWidth, outputHeight). -/
def outputDims (canvas : CanvasEl) (o : GifCaptureOptions) : JSNum × JSNum :=
  let sW := srcW canvas o.screenBounds
  let sH := srcH canvas o.screenBounds
  let srcAspect := jsDiv (sW : ℚ) (sH : ℚ)
  let targetAspect := jsDiv (o.width : ℚ) (o.height : ℚ)
  if jsGT srcAspect targetAspect then
    (JSNum.fin (o.width : ℚ), jsRoundNum (jsDivNum (o.width : ℚ) srcAspect))
  else
    (jsRoundNum (jsMulNum ((o.height : ℚ)) srcAspect), JSNum.fin (o.height : ℚ))

inductive CaptureError where
  | invalidStateError
  | indexSizeError
deriving DecidableEq, Repr

/-- One iteration of the capture loop at progress `t`: `drawImage` throws
an InvalidStateError for a zero-sized source canvas; `getImageData` throws
an IndexSizeError for a zero-sized rectangle; otherwise the frame at `t`
is captured. -/
def captureStep (canvas : CanvasEl) (outW outH : JSNum) (t : ℚ) :
    Except CaptureError ℚ :=
  if canvas.width = 0 ∨ canvas.height = 0 then
    Except.error CaptureError.invalidStateError
  else if zeroSize outW || zeroSize outH then
    Except.error CaptureError.indexSizeError
  else Except.ok t

/-- The frame loop `for (let i = 0; i < targetFrameCount; i++)`; a thrown
error aborts the loop and discards the frames collected so far. -/
def captureLoop (canvas : CanvasEl) (outW outH : JSNum) (n : ℕ) :
    List ℕ → Except CaptureError (List ℚ)
  | [] => Except.ok []
  | i :: rest =>
    match captureStep canvas outW outH ((i : ℚ) / (n : ℚ)) with
    | Except.error e => Except.error e
    | Except.ok t =>
      match captureLoop canvas outW outH n rest with
      | Except.error e => Except.error e
      | Except.ok frames => Except.ok (t :: frames)

/-- The capture half of `captureGif`: computes the crop geometry, then
captures the frames at t = i / targetFrameCount. -/
def captureGifFrames (canvas : CanvasEl) (o : GifCaptureOptions) :
    Except CaptureError (List ℚ) :=
  let n := (targetFrameCount o.cycleDuration).toNat
  let dims := outputDims canvas o
  captureLoop canvas dims.1 dims.2 n (List.range n)

end Gif

/-! ### Global palette and frame indexing (GifCapture module,
buildGlobalPalette / findClosestColor / indexFrame)

Pixels carry 0..255 integer channels.  The JavaScript `Map` keyed by the
string `r,g,b` iterates in insertion order; it is modelled by an
association list keyed by the RGB triple itself (the string encoding is
injective on channel triples).  `Array.prototype.sort` is stable;
`List.mergeSort` is the stable sort used to model it. -/

namespace Gif

structure RGB where
  r : ℕ
  g : ℕ
  b : ℕ
deriving DecidableEq, Repr

/-- One RGBA pixel of a captured frame (the alpha byte is skipped by the
palette code). -/
structure Pixel where
  r : ℕ
  g : ℕ
  b : ℕ
  a : ℕ
deriving DecidableEq, Repr

/-- A captured frame as its flat pixel list. -/
abbrev Frame := List Pixel

/-- Per-channel distance `Math.abs(x - y)`. -/
def chDist (x y : ℕ) : ℕ := ((x : ℤ) - (y : ℤ)).natAbs

/-- `dr < threshold && dg < threshold && db < threshold`: the pixel is
within the per-channel tolerance of the chroma key. -/
def isChromaKey (p : Pixel) (ck : RGB) (threshold : ℕ) : Bool :=
  decide (chDist p.r ck.r < threshold)
    && decide (chDist p.g ck.g < threshold)
    && decide (chDist p.b ck.b < threshold)

/-- `colorCounts.set(key, (colorCounts.get(key) || 0) + 1)` on an
insertion-ordered association list. -/
def bump : List (RGB × ℕ) → RGB → List (RGB × ℕ)
  | [], c => [(c, 1)]
  | (c', n) :: rest, c =>
    if c' = c then (c', n + 1) :: rest else (c', n) :: bump rest c

/-- The color-count scan of one frame (chroma-key pixels are skipped). -/
def countFrame (ck : RGB) (threshold : ℕ) :
    List (RGB × ℕ) → Frame → List (RGB × ℕ)
  | counts, [] => counts
  | counts, p :: rest =>
    if isChromaKey p ck threshold then countFrame ck threshold counts rest
    else countFrame ck threshold (bump counts ⟨p.r, p.g, p.b⟩) rest

/-- Color frequencies across all frames, in first-seen order. -/
def countColors (frames : List Frame) (ck : RGB) (threshold : ℕ) :
    List (RGB × ℕ) :=
  frames.foldl (fun counts f => countFrame ck threshold counts f) []

/-- `sort((a, b) => b[1] - a[1]).slice(0, 255).map(...)`: the 255 most
frequent colors, ties kept in insertion order by sort stability. -/
def selectedColors (frames : List Frame) (ck : RGB) (threshold : ℕ) :
    List RGB :=
  (((countColors frames ck threshold).mergeSort
      (fun a b => b.2 ≤ a.2)).take 255).map Prod.fst

/-- Embeds `buildGlobalPalette`: index 0 is the chroma key, then the
selected colors, padded with black filler up to 256 entries. -/
def buildGlobalPalette (frames : List Frame) (ck : RGB) (threshold : ℕ) :
    List RGB :=
  let palette := ck :: selectedColors frames ck threshold
  palette ++ List.replicate (256 - palette.length) ⟨0, 0, 0⟩

/-- `(r - pr) ** 2 + (g - pg) ** 2 + (b - pb) ** 2` (squared Euclidean
distance; squares of signed differences equal squares of absolute
differences). -/
def colorDist (r g b : ℕ) (c : RGB) : ℕ :=
  chDist r c.r ^ 2 + chDist g c.g ^ 2 + chDist b c.b ^ 2

/-- Embeds `findClosestColor`: scan indices 1..palette.length-1 starting
from `bestIndex = 1`, `bestDist = Infinity`, updating on strictly smaller
distance. -/
def findClosestColor (r g b : ℕ) (palette : List RGB) : ℕ :=
  ((List.range' 1 (palette.length - 1)).foldl
    (fun best i =>
      let dist := colorDist r g b (palette.getD i ⟨0, 0, 0⟩)
      if (dist : WithTop ℕ) < best.2 then (i, (dist : WithTop ℕ)) else best)
    ((1 : ℕ), (⊤ : WithTop ℕ))).1

/-- One pixel of `indexFrame`: chroma-key pixels map to the transparent
index 0, all others to the closest palette entry. -/
def indexPixel (p : Pixel) (palette : List RGB) (ck : RGB)
    (threshold : ℕ) : ℕ :=
  if isChromaKey p ck threshold then 0
  else findClosestColor p.r p.g p.b palette

/-- Embeds `indexFrame`. -/
def indexFrame (frame : Frame) (palette : List RGB) (ck : RGB)
    (threshold : ℕ) : List ℕ :=
  frame.map (fun p => indexPixel p palette ck threshold)

end Gif

/-- Proof scaffolding: the loop body of `findClosestColor` with the
distance function abstracted. -/
def closestStep (D : ℕ → ℕ) (best : ℕ × WithTop ℕ) (i : ℕ) : ℕ × WithTop ℕ :=
  if ((D i : ℕ) : WithTop ℕ) < best.2 then (i, ((D i : ℕ) : WithTop ℕ)) else best

/-- Proof scaffolding: the `findClosestColor` loop over indices
m..m+k-1 from a current best index b with its distance. -/
def closestFold (D : ℕ → ℕ) (m k b : ℕ) : ℕ × WithTop ℕ :=
  (List.range' m k).foldl (closestStep D) (b, ((D b : ℕ) : WithTop ℕ))

/-! ### Lemmas about bounds accumulation -/

lemma accum_foldl_minX_le (ps : List (ℝ × ℝ)) (b : ScreenBounds) :
    (ps.foldl accumPoint b).minX ≤ b.minX := by
  induction ps generalizing b with
  | nil => simp
  | cons p rest ih =>
    calc (List.foldl accumPoint (accumPoint b p) rest).minX
        ≤ (accumPoint b p).minX := ih (accumPoint b p)
      _ ≤ b.minX := min_le_left _ _

lemma accum_foldl_maxX_ge (ps : List (ℝ × ℝ)) (b : ScreenBounds) :
    b.maxX ≤ (ps.foldl accumPoint b).maxX := by
  induction ps generalizing b with
  | nil => simp
  | cons p rest ih =>
    calc b.maxX ≤ (accumPoint b p).maxX := le_max_left _ _
      _ ≤ (List.foldl accumPoint (accumPoint b p) rest).maxX := ih (accumPoint b p)

lemma accum_foldl_minY_le (ps : List (ℝ × ℝ)) (b : ScreenBounds) :
    (ps.foldl accumPoint b).minY ≤ b.minY := by
  induction ps generalizing b with
  | nil => simp
  | cons p rest ih =>
    calc (List.foldl accumPoint (accumPoint b p) rest).minY
        ≤ (accumPoint b p).minY := ih (accumPoint b p)
      _ ≤ b.minY := min_le_left _ _

lemma accum_foldl_maxY_ge (ps : List (ℝ × ℝ)) (b : ScreenBounds) :
    b.maxY ≤ (ps.foldl accumPoint b).maxY := by
  induction ps generalizing b with
  | nil => simp
  | cons p rest ih =>
    calc b.maxY ≤ (accumPoint b p).maxY := le_max_left _ _
      _ ≤ (List.foldl accumPoint (accumPoint b p) rest).maxY := ih (accumPoint b p)

lemma accumBounds_minX_le_one (ps : List (ℝ × ℝ)) : (accumBounds ps).minX ≤ 1 :=
  accum_foldl_minX_le ps boundsReset

lemma accumBounds_maxX_nonneg (ps : List (ℝ × ℝ)) : 0 ≤ (accumBounds ps).maxX :=
  accum_foldl_maxX_ge ps boundsReset

lemma accumBounds_minY_le_one (ps : List (ℝ × ℝ)) : (accumBounds ps).minY ≤ 1 :=
  accum_foldl_minY_le ps boundsReset

lemma accumBounds_maxY_nonneg (ps : List (ℝ × ℝ)) : 0 ≤ (accumBounds ps).maxY :=
  accum_foldl_maxY_ge ps boundsReset

/-- Claim C3: the final bounds delivered at `done` equal the accumulated
per-axis min/max expanded by the 2% base padding plus, only for the wave
kind, extra vertical padding of 0.15 × amplitude on minY and maxY, and all
four components are clamped to [0, 1]. -/
theorem c3_final_bounds (config : TextConfig) (ps : List (ℝ × ℝ))
    (hamp : 0 ≤ config.animation.amplitude) :
    let acc := accumBounds ps
    let fb := finalBounds config acc
    let extra : ℝ := if config.animation.type = AnimationType.wave
      then config.animation.amplitude * (15 / 100) else 0
    (fb.minX = max 0 (acc.minX - 2 / 100)
      ∧ fb.maxX = min 1 (acc.maxX + 2 / 100)
      ∧ fb.minY = max 0 (acc.minY - 2 / 100 - extra)
      ∧ fb.maxY = min 1 (acc.maxY + 2 / 100 + extra))
    ∧ (config.animation.type ≠ AnimationType.wave → extra = 0)
    ∧ (config.animation.type = AnimationType.wave →
        extra = config.animation.amplitude * (15 / 100))
    ∧ (0 ≤ fb.minX ∧ fb.minX ≤ 1) ∧ (0 ≤ fb.maxX ∧ fb.maxX ≤ 1)
    ∧ (0 ≤ fb.minY ∧ fb.minY ≤ 1) ∧ (0 ≤ fb.maxY ∧ fb.maxY ≤ 1) := by
  intro acc fb extra
  have hminX : acc.minX ≤ 1 := accumBounds_minX_le_one ps
  have hmaxX : 0 ≤ acc.maxX := accumBounds_maxX_nonneg ps
  have hminY : acc.minY ≤ 1 := accumBounds_minY_le_one ps
  have hmaxY : 0 ≤ acc.maxY := accumBounds_maxY_nonneg ps
  have hextra : (0 : ℝ) ≤ (if config.animation.type = AnimationType.wave
      then config.animation.amplitude * (15 / 100) else 0) := by
    by_cases hw : config.animation.type = AnimationType.wave
    · rw [if_pos hw]
      positivity
    · rw [if_neg hw]
  refine ⟨⟨rfl, rfl, rfl, rfl⟩, ?_, ?_, ?_, ?_, ?_, ?_⟩
  · intro hw
    simp only [extra, if_neg hw]
  · intro hw
    simp only [extra, if_pos hw]
  · constructor
    · exact le_max_left _ _
    · apply max_le <;> linarith
  · constructor
    · apply le_min <;> linarith
    · exact min_le_left _ _
  · constructor
    · exact le_max_left _ _
    · apply max_le <;> linarith
  · constructor
    · apply le_min <;> linarith
    · exact min_le_left _ _

theorem c3_final_bounds_witness :
    (0 : ℝ) ≤ (⟨⟨AnimationType.wave, 1, ⟨0, 0⟩⟩⟩ : TextConfig).animation.amplitude
    ∧ (let acc := accumBounds [((1 : ℝ) / 2, (1 : ℝ) / 2)]
       let fb := finalBounds ⟨⟨AnimationType.wave, 1, ⟨0, 0⟩⟩⟩ acc
       (0 ≤ fb.minX ∧ fb.minX ≤ 1) ∧ (0 ≤ fb.maxY ∧ fb.maxY ≤ 1)) := by
  have h := c3_final_bounds ⟨⟨AnimationType.wave, 1, ⟨0, 0⟩⟩⟩
    [((1 : ℝ) / 2, (1 : ℝ) / 2)] (by norm_num)
  exact ⟨by norm_num, h.2.2.2.1, h.2.2.2.2.2.2⟩

/-! ### Lemmas about the flip offset -/

lemma jsMod_fixup_eq (a m : ℝ) (hm : 0 < m) :
    (if jsMod a m < 0 then jsMod a m + m else jsMod a m) = a - m * ⌊a / m⌋ := by
  have hm0 : m ≠ 0 := ne_of_gt hm
  by_cases hx : 0 ≤ a / m
  · have ht : jsTrunc (a / m) = ⌊a / m⌋ := if_pos hx
    have hnn : 0 ≤ jsMod a m := by
      have h0 : 0 ≤ a - ⌊a / m⌋ * m := Int.sub_floor_div_mul_nonneg a hm
      rw [jsMod, ht]
      linarith
    rw [if_neg (not_lt.mpr hnn), jsMod, ht]
  · have hxlt : a / m < 0 := lt_of_not_ge hx
    have ht : jsTrunc (a / m) = ⌈a / m⌉ := if_neg hx
    have hfr := Int.self_sub_floor (a / m)
    by_cases hf : Int.fract (a / m) = 0
    · have hqF : ((⌊a / m⌋ : ℤ) : ℝ) = a / m := by
        rw [hf] at hfr
        linarith
      have hceil : ⌈a / m⌉ = ⌊a / m⌋ := by
        conv_lhs => rw [← hqF]
        exact Int.ceil_intCast _
      have hzero : jsMod a m = 0 := by
        rw [jsMod, ht, hceil, hqF]
        field_simp
      rw [hzero, if_neg (lt_irrefl (0 : ℝ))]
      rw [← hzero, jsMod, ht, hceil]
    · have hfrpos : 0 < Int.fract (a / m) :=
        lt_of_le_of_ne (Int.fract_nonneg _) (Ne.symm hf)
      have hflt : (⌊a / m⌋ : ℝ) < a / m := by linarith
      have hceil : ⌈a / m⌉ = ⌊a / m⌋ + 1 := by
        rw [Int.ceil_eq_iff]
        constructor
        · push_cast
          linarith
        · push_cast
          have := Int.lt_floor_add_one (a / m)
          linarith
      have hneg : jsMod a m < 0 := by
        rw [jsMod, ht, hceil]
        have h1 : a - ⌊a / m⌋ * m < m := Int.sub_floor_div_mul_lt a hm
        push_cast
        linarith
      rw [if_pos hneg, jsMod, ht, hceil]
      push_cast
      ring

lemma normAngle_nonneg (x : ℝ) : 0 ≤ normAngle x := by
  have hm : (0 : ℝ) < Real.pi * 2 := by positivity
  have h := Int.sub_floor_div_mul_nonneg x hm
  rw [normAngle]
  linarith

lemma normAngle_lt_two_pi (x : ℝ) : normAngle x < 2 * Real.pi := by
  have hm : (0 : ℝ) < Real.pi * 2 := by positivity
  have h := Int.sub_floor_div_mul_lt x hm
  rw [normAngle]
  linarith

lemma normAngle_add_period (x : ℝ) : normAngle (x + Real.pi * 2) = normAngle x := by
  have hm : (0 : ℝ) < Real.pi * 2 := by positivity
  have hm0 : (Real.pi * 2) ≠ 0 := ne_of_gt hm
  have hq : (x + Real.pi * 2) / (Real.pi * 2) = x / (Real.pi * 2) + 1 := by
    field_simp
  rw [normAngle, normAngle, hq, Int.floor_add_one]
  push_cast
  ring

/-- The totalAngle computed by `getFlipOffset` is exactly the cumulative
angle normalised to [0, 2π). -/
lemma getFlipOffset_eq_normAngle (a i : ℝ) :
    getFlipOffset a i =
      if Real.pi / 2 < normAngle (a + i) ∧ normAngle (a + i) < Real.pi / 2 * 3
      then Real.pi else 0 := by
  have hm : (0 : ℝ) < Real.pi * 2 := by positivity
  have hfix := jsMod_fixup_eq (a + i) (Real.pi * 2) hm
  simp only [getFlipOffset]
  rw [hfix]
  simp only [normAngle]

lemma getFlipOffset_add_period (a i : ℝ) :
    getFlipOffset (a + Real.pi * 2) i = getFlipOffset a i := by
  rw [getFlipOffset_eq_normAngle, getFlipOffset_eq_normAngle]
  have h : a + Real.pi * 2 + i = a + i + Real.pi * 2 := by ring
  rw [h, normAngle_add_period]

lemma normAngle_zero : normAngle 0 = 0 := by
  simp [normAngle]

lemma normAngle_two_pi : normAngle (2 * Real.pi + 0) = 0 := by
  have hm : (0 : ℝ) < Real.pi * 2 := by positivity
  have hm0 : (Real.pi * 2) ≠ 0 := ne_of_gt hm
  have hq : (2 * Real.pi + 0) / (Real.pi * 2) = 1 := by
    rw [add_zero, div_eq_one_iff_eq hm0]
    ring
  rw [normAngle, hq, Int.floor_one]
  push_cast
  ring

/-- Claim C4: for the single-axis full-rotation kinds the flip offset is π
exactly when the cumulative rotation angle (animation angle plus initial
tilt), normalised to [0, 2π), lies strictly inside (π/2, 3π/2), and is 0
otherwise; with initial tilt 0 the flip offset is 0 at t = 0 (angle 0) and
t = 1 (angle 2π). -/
theorem c4_flip_offset (a i : ℝ) :
    (0 ≤ normAngle (a + i) ∧ normAngle (a + i) < 2 * Real.pi)
    ∧ (getFlipOffset a i = Real.pi ↔
        (Real.pi / 2 < normAngle (a + i) ∧ normAngle (a + i) < 3 * (Real.pi / 2)))
    ∧ (¬ (Real.pi / 2 < normAngle (a + i) ∧ normAngle (a + i) < 3 * (Real.pi / 2)) →
        getFlipOffset a i = 0)
    ∧ getFlipOffset 0 0 = 0
    ∧ getFlipOffset (2 * Real.pi) 0 = 0 := by
  have hpi : (0 : ℝ) < Real.pi := Real.pi_pos
  have hchar := getFlipOffset_eq_normAngle a i
  have horder : Real.pi / 2 * 3 = 3 * (Real.pi / 2) := by ring
  rw [horder] at hchar
  refine ⟨⟨normAngle_nonneg _, normAngle_lt_two_pi _⟩, ?_, ?_, ?_, ?_⟩
  · constructor
    · intro h
      by_contra hcond
      rw [if_neg hcond] at hchar
      rw [hchar] at h
      linarith
    · intro hcond
      rw [if_pos hcond] at hchar
      exact hchar
  · intro hcond
    rw [if_neg hcond] at hchar
    exact hchar
  · rw [getFlipOffset_eq_normAngle]
    have h0 : (0 : ℝ) + 0 = 0 := by ring
    rw [h0, normAngle_zero, if_neg]
    push_neg
    intro h
    linarith
  · rw [getFlipOffset_eq_normAngle, normAngle_two_pi, if_neg]
    push_neg
    intro h
    linarith

/-! ### Lemmas about quaternion periodicity -/

lemma qneg_qneg (q : Quat) : qneg (qneg q) = q := by
  simp [qneg]

lemma qmul_qneg_right (a b : Quat) : qmul a (qneg b) = qneg (qmul a b) := by
  simp only [qmul, qneg, Quat.mk.injEq]
  refine ⟨by ring, by ring, by ring, by ring⟩

lemma setFromEulerXYZ_x_period (ex ey ez : ℝ) :
    setFromEulerXYZ (ex + Real.pi * 2) ey ez = qneg (setFromEulerXYZ ex ey ez) := by
  have h : (ex + Real.pi * 2) / 2 = ex / 2 + Real.pi := by ring
  simp only [setFromEulerXYZ, qneg, h, Real.cos_add_pi, Real.sin_add_pi,
    Quat.mk.injEq]
  refine ⟨by ring, by ring, by ring, by ring⟩

lemma setFromEulerXYZ_y_period (ex ey ez : ℝ) :
    setFromEulerXYZ ex (ey + Real.pi * 2) ez = qneg (setFromEulerXYZ ex ey ez) := by
  have h : (ey + Real.pi * 2) / 2 = ey / 2 + Real.pi := by ring
  simp only [setFromEulerXYZ, qneg, h, Real.cos_add_pi, Real.sin_add_pi,
    Quat.mk.injEq]
  refine ⟨by ring, by ring, by ring, by ring⟩

lemma setFromEulerXYZ_z_period (ex ey ez : ℝ) :
    setFromEulerXYZ ex ey (ez + Real.pi * 2) = qneg (setFromEulerXYZ ex ey ez) := by
  have h : (ez + Real.pi * 2) / 2 = ez / 2 + Real.pi := by ring
  simp only [setFromEulerXYZ, qneg, h, Real.cos_add_pi, Real.sin_add_pi,
    Quat.mk.injEq]
  refine ⟨by ring, by ring, by ring, by ring⟩

lemma sin_shift_cycle (t : ℝ) :
    Real.sin ((t + 1) * (Real.pi * 2)) = Real.sin (t * (Real.pi * 2)) := by
  have h : (t + 1) * (Real.pi * 2) = t * (Real.pi * 2) + 2 * Real.pi := by ring
  rw [h, Real.sin_add_two_pi]

/-- Evaluation of the transform for each animation kind. -/
lemma apply_spinY (g : GroupState) (amp ix iy t : ℝ) :
    applyAnimationTransform g ⟨⟨AnimationType.spinY, amp, ⟨ix, iy⟩⟩⟩ t =
      ⟨qmul (setFromEulerXYZ ix iy 0)
        (setFromEulerXYZ 0
          (t * (Real.pi * 2) + getFlipOffset (t * (Real.pi * 2)) iy) 0),
       ⟨0, 0, 0⟩, ⟨1, 1, 1⟩⟩ := rfl

lemma apply_spinX (g : GroupState) (amp ix iy t : ℝ) :
    applyAnimationTransform g ⟨⟨AnimationType.spinX, amp, ⟨ix, iy⟩⟩⟩ t =
      ⟨qmul (setFromEulerXYZ ix iy 0)
        (setFromEulerXYZ
          (t * (Real.pi * 2) + getFlipOffset (t * (Real.pi * 2)) ix) 0 0),
       ⟨0, 0, 0⟩, ⟨1, 1, 1⟩⟩ := rfl

lemma apply_spinZ (g : GroupState) (amp ix iy t : ℝ) :
    applyAnimationTransform g ⟨⟨AnimationType.spinZ, amp, ⟨ix, iy⟩⟩⟩ t =
      ⟨qmul (setFromEulerXYZ ix iy 0) (setFromEulerXYZ 0 0 (t * (Real.pi * 2))),
       ⟨0, 0, 0⟩, ⟨1, 1, 1⟩⟩ := rfl

lemma apply_swingY (g : GroupState) (amp ix iy t : ℝ) :
    applyAnimationTransform g ⟨⟨AnimationType.swingY, amp, ⟨ix, iy⟩⟩⟩ t =
      ⟨qmul (setFromEulerXYZ ix iy 0)
        (setFromEulerXYZ 0 (Real.sin (t * (Real.pi * 2)) * amp) 0),
       ⟨0, 0, 0⟩, ⟨1, 1, 1⟩⟩ := rfl

lemma apply_swingX (g : GroupState) (amp ix iy t : ℝ) :
    applyAnimationTransform g ⟨⟨AnimationType.swingX, amp, ⟨ix, iy⟩⟩⟩ t =
      ⟨qmul (setFromEulerXYZ ix iy 0)
        (setFromEulerXYZ (Real.sin (t * (Real.pi * 2)) * amp) 0 0),
       ⟨0, 0, 0⟩, ⟨1, 1, 1⟩⟩ := rfl

lemma apply_swingZ (g : GroupState) (amp ix iy t : ℝ) :
    applyAnimationTransform g ⟨⟨AnimationType.swingZ, amp, ⟨ix, iy⟩⟩⟩ t =
      ⟨qmul (setFromEulerXYZ ix iy 0)
        (setFromEulerXYZ 0 0 (Real.sin (t * (Real.pi * 2)) * amp)),
       ⟨0, 0, 0⟩, ⟨1, 1, 1⟩⟩ := rfl

lemma apply_bounce (g : GroupState) (amp ix iy t : ℝ) :
    applyAnimationTransform g ⟨⟨AnimationType.bounce, amp, ⟨ix, iy⟩⟩⟩ t =
      ⟨setFromEulerXYZ ix iy 0,
       ⟨0, |Real.sin (t * (Real.pi * 2))| * amp, 0⟩, ⟨1, 1, 1⟩⟩ := rfl

lemma apply_pulse (g : GroupState) (amp ix iy t : ℝ) :
    applyAnimationTransform g ⟨⟨AnimationType.pulse, amp, ⟨ix, iy⟩⟩⟩ t =
      ⟨setFromEulerXYZ ix iy 0, ⟨0, 0, 0⟩,
       ⟨1 + Real.sin (t * (Real.pi * 2)) * amp,
        1 + Real.sin (t * (Real.pi * 2)) * amp,
        1 + Real.sin (t * (Real.pi * 2)) * amp⟩⟩ := rfl

lemma apply_wave (g : GroupState) (amp ix iy t : ℝ) :
    applyAnimationTransform g ⟨⟨AnimationType.wave, amp, ⟨ix, iy⟩⟩⟩ t =
      ⟨setFromEulerXYZ ix iy 0, ⟨0, 0, 0⟩, ⟨1, 1, 1⟩⟩ := rfl

/-- Claim C5: for every config and every t, the transforms produced at t
and t + 1 represent the same pose: equal orientation quaternions up to
sign, identical position and identical scale. -/
theorem c5_loop_seamless (config : TextConfig) (t : ℝ) (g : GroupState) :
    ((applyAnimationTransform g config t).quaternion
        = (applyAnimationTransform g config (t + 1)).quaternion
      ∨ (applyAnimationTransform g config t).quaternion
        = qneg (applyAnimationTransform g config (t + 1)).quaternion)
    ∧ (applyAnimationTransform g config t).position
        = (applyAnimationTransform g config (t + 1)).position
    ∧ (applyAnimationTransform g config t).scale
        = (applyAnimationTransform g config (t + 1)).scale := by
  obtain ⟨⟨ty, amp, ⟨ix, iy⟩⟩⟩ := config
  have hshift : (t + 1) * (Real.pi * 2) = t * (Real.pi * 2) + Real.pi * 2 := by
    ring
  cases ty with
  | spinY =>
    rw [apply_spinY, apply_spinY, hshift, getFlipOffset_add_period]
    refine ⟨Or.inr ?_, rfl, rfl⟩
    have harg : t * (Real.pi * 2) + Real.pi * 2
          + getFlipOffset (t * (Real.pi * 2)) iy
        = t * (Real.pi * 2) + getFlipOffset (t * (Real.pi * 2)) iy
          + Real.pi * 2 := by
      ring
    rw [harg, setFromEulerXYZ_y_period, qmul_qneg_right, qneg_qneg]
  | spinX =>
    rw [apply_spinX, apply_spinX, hshift, getFlipOffset_add_period]
    refine ⟨Or.inr ?_, rfl, rfl⟩
    have harg : t * (Real.pi * 2) + Real.pi * 2
          + getFlipOffset (t * (Real.pi * 2)) ix
        = t * (Real.pi * 2) + getFlipOffset (t * (Real.pi * 2)) ix
          + Real.pi * 2 := by
      ring
    rw [harg, setFromEulerXYZ_x_period, qmul_qneg_right, qneg_qneg]
  | spinZ =>
    rw [apply_spinZ, apply_spinZ, hshift, setFromEulerXYZ_z_period,
      qmul_qneg_right]
    exact ⟨Or.inr (qneg_qneg _).symm, rfl, rfl⟩
  | swingY =>
    rw [apply_swingY, apply_swingY, sin_shift_cycle]
    exact ⟨Or.inl rfl, rfl, rfl⟩
  | swingX =>
    rw [apply_swingX, apply_swingX, sin_shift_cycle]
    exact ⟨Or.inl rfl, rfl, rfl⟩
  | swingZ =>
    rw [apply_swingZ, apply_swingZ, sin_shift_cycle]
    exact ⟨Or.inl rfl, rfl, rfl⟩
  | bounce =>
    rw [apply_bounce, apply_bounce, sin_shift_cycle]
    exact ⟨Or.inl rfl, rfl, rfl⟩
  | pulse =>
    rw [apply_pulse, apply_pulse, sin_shift_cycle]
    exact ⟨Or.inl rfl, rfl, rfl⟩
  | wave =>
    rw [apply_wave, apply_wave]
    exact ⟨Or.inl rfl, rfl, rfl⟩

/-- Claim C10: the transform left on the group depends only on
(config, t): the function resets rotation, position and scale before
applying the animation, so any two prior transform states produce the
identical final state, and repeated application is idempotent. -/
theorem c10_transform_state_independent (config : TextConfig) (t : ℝ)
    (g g2 : GroupState) :
    applyAnimationTransform g config t = applyAnimationTransform g2 config t
    ∧ applyAnimationTransform (applyAnimationTransform g config t) config t
        = applyAnimationTransform g config t :=
  ⟨rfl, rfl⟩

/-! ### Lemmas about the capture loop -/

lemma captureStep_ok (canvas : Gif.CanvasEl) (outW outH : Gif.JSNum) (t : ℚ)
    (hc : ¬(canvas.width = 0 ∨ canvas.height = 0))
    (hz : ¬((Gif.zeroSize outW || Gif.zeroSize outH) = true)) :
    Gif.captureStep canvas outW outH t = Except.ok t := by
  simp only [Gif.captureStep, if_neg hc, if_neg hz]

lemma captureStep_err (canvas : Gif.CanvasEl) (outW outH : Gif.JSNum) (t : ℚ)
    (hdeg : (canvas.width = 0 ∨ canvas.height = 0)
      ∨ (Gif.zeroSize outW || Gif.zeroSize outH) = true) :
    ∃ e, Gif.captureStep canvas outW outH t = Except.error e := by
  rcases hdeg with hc | hz
  · exact ⟨Gif.CaptureError.invalidStateError, by simp only [Gif.captureStep, if_pos hc]⟩
  · by_cases hc : canvas.width = 0 ∨ canvas.height = 0
    · exact ⟨Gif.CaptureError.invalidStateError, by simp only [Gif.captureStep, if_pos hc]⟩
    · exact ⟨Gif.CaptureError.indexSizeError,
        by simp only [Gif.captureStep, if_neg hc, if_pos hz]⟩

lemma captureLoop_ok_inv (canvas : Gif.CanvasEl) (outW outH : Gif.JSNum) (n : ℕ) :
    ∀ (l : List ℕ) (ts : List ℚ),
      Gif.captureLoop canvas outW outH n l = Except.ok ts →
      ts = l.map (fun i : ℕ => (i : ℚ) / (n : ℚ)) := by
  intro l
  induction l with
  | nil =>
    intro ts h
    simp only [Gif.captureLoop] at h
    cases h
    simp
  | cons i rest ih =>
    intro ts h
    simp only [Gif.captureLoop] at h
    rcases hstep : Gif.captureStep canvas outW outH ((i : ℚ) / (n : ℚ)) with e | t
    · rw [hstep] at h
      cases h
    · rw [hstep] at h
      rcases hrec : Gif.captureLoop canvas outW outH n rest with e | ts'
      · rw [hrec] at h
        cases h
      · rw [hrec] at h
        cases h
        have ht : t = (i : ℚ) / (n : ℚ) := by
          by_cases hc : canvas.width = 0 ∨ canvas.height = 0
          · simp only [Gif.captureStep, if_pos hc] at hstep
            cases hstep
          · by_cases hz : (Gif.zeroSize outW || Gif.zeroSize outH) = true
            · simp only [Gif.captureStep, if_neg hc, if_pos hz] at hstep
              cases hstep
            · simp only [Gif.captureStep, if_neg hc, if_neg hz] at hstep
              cases hstep
              rfl
        rw [ht, ih ts' hrec]
        simp

lemma captureLoop_first_error (canvas : Gif.CanvasEl) (outW outH : Gif.JSNum)
    (n i : ℕ) (rest : List ℕ) (e : Gif.CaptureError)
    (he : Gif.captureStep canvas outW outH ((i : ℚ) / (n : ℚ)) = Except.error e) :
    Gif.captureLoop canvas outW outH n (i :: rest) = Except.error e := by
  simp only [Gif.captureLoop, he]

lemma outputDims_def (canvas : Gif.CanvasEl) (o : Gif.GifCaptureOptions) :
    Gif.outputDims canvas o =
      (if Gif.jsGT
            (Gif.jsDiv ((Gif.srcW canvas o.screenBounds : ℚ))
              ((Gif.srcH canvas o.screenBounds : ℚ)))
            (Gif.jsDiv ((o.width : ℚ)) ((o.height : ℚ))) = true then
        (Gif.JSNum.fin ((o.width : ℚ)),
         Gif.jsRoundNum (Gif.jsDivNum ((o.width : ℚ))
           (Gif.jsDiv ((Gif.srcW canvas o.screenBounds : ℚ))
             ((Gif.srcH canvas o.screenBounds : ℚ)))))
      else
        (Gif.jsRoundNum (Gif.jsMulNum ((o.height : ℚ))
           (Gif.jsDiv ((Gif.srcW canvas o.screenBounds : ℚ))
             ((Gif.srcH canvas o.screenBounds : ℚ)))),
         Gif.JSNum.fin ((o.height : ℚ)))) := rfl

lemma outputDims_degenerate (canvas : Gif.CanvasEl) (o : Gif.GifCaptureOptions)
    (hw : 0 < o.width) (hh : 0 < o.height)
    (hdeg : Gif.srcW canvas o.screenBounds = 0
      ∨ Gif.srcH canvas o.screenBounds = 0) :
    (Gif.zeroSize (Gif.outputDims canvas o).1
      || Gif.zeroSize (Gif.outputDims canvas o).2) = true := by
  have hhq : ((o.height : ℚ)) ≠ 0 := by
    have h0 : (0 : ℚ) < (o.height : ℚ) := by exact_mod_cast hh
    linarith
  have hwq : (0 : ℚ) < (o.width : ℚ) := by exact_mod_cast hw
  have hhq' : (0 : ℚ) < (o.height : ℚ) := by exact_mod_cast hh
  have htarget : Gif.jsDiv ((o.width : ℚ)) ((o.height : ℚ))
      = Gif.JSNum.fin ((o.width : ℚ) / (o.height : ℚ)) := by
    simp only [Gif.jsDiv, if_neg hhq]
  have htpos : (0 : ℚ) < (o.width : ℚ) / (o.height : ℚ) := div_pos hwq hhq'
  by_cases hsw : Gif.srcW canvas o.screenBounds = 0
  · by_cases hsh : Gif.srcH canvas o.screenBounds = 0
    · -- 0/0: the aspect ratio is NaN, every comparison with it is false
      have haspect : Gif.jsDiv ((Gif.srcW canvas o.screenBounds : ℚ))
          ((Gif.srcH canvas o.screenBounds : ℚ)) = Gif.JSNum.nan := by
        rw [hsw, hsh]
        simp [Gif.jsDiv]
      rw [outputDims_def, haspect, htarget]
      simp [Gif.jsGT, Gif.jsMulNum, Gif.jsRoundNum, Gif.zeroSize]
    · -- 0/h: the aspect ratio is 0, output width rounds to 0
      have hshq : ((Gif.srcH canvas o.screenBounds : ℚ)) ≠ 0 := by
        exact_mod_cast hsh
      have haspect : Gif.jsDiv ((Gif.srcW canvas o.screenBounds : ℚ))
          ((Gif.srcH canvas o.screenBounds : ℚ)) = Gif.JSNum.fin 0 := by
        rw [hsw]
        simp only [Int.cast_zero, Gif.jsDiv, if_neg hshq, zero_div]
      rw [outputDims_def, haspect, htarget]
      have hcmp : Gif.jsGT (Gif.JSNum.fin 0)
          (Gif.JSNum.fin ((o.width : ℚ) / (o.height : ℚ))) = false := by
        simp only [Gif.jsGT, decide_eq_false_iff_not, not_lt]
        linarith
      rw [hcmp]
      simp [Gif.jsMulNum, Gif.jsRoundNum, Gif.zeroSize]
  · have hsh : Gif.srcH canvas o.screenBounds = 0 := by tauto
    have hshq : ((Gif.srcH canvas o.screenBounds : ℚ)) = 0 := by
      exact_mod_cast hsh
    rcases lt_trichotomy (Gif.srcW canvas o.screenBounds) 0 with hlt | heq | hgt
    · -- w/0 with w < 0: the aspect ratio is -Infinity
      have hswq : ((Gif.srcW canvas o.screenBounds : ℚ)) < 0 := by
        exact_mod_cast hlt
      have haspect : Gif.jsDiv ((Gif.srcW canvas o.screenBounds : ℚ))
          ((Gif.srcH canvas o.screenBounds : ℚ)) = Gif.JSNum.negInf := by
        rw [Gif.jsDiv, if_pos hshq,
          if_neg (by linarith : ¬((Gif.srcW canvas o.screenBounds : ℚ)) = 0),
          if_neg (by linarith : ¬(0 : ℚ) < ((Gif.srcW canvas o.screenBounds : ℚ)))]
      rw [outputDims_def, haspect, htarget]
      simp only [Gif.jsGT, Bool.false_eq_true, if_false, Gif.jsMulNum,
        if_pos hhq', Gif.jsRoundNum, Gif.zeroSize, Bool.true_or]
    · exact absurd heq hsw
    · -- w/0 with w > 0: the aspect ratio is +Infinity, output height is 0
      have hswq : (0 : ℚ) < ((Gif.srcW canvas o.screenBounds : ℚ)) := by
        exact_mod_cast hgt
      have haspect : Gif.jsDiv ((Gif.srcW canvas o.screenBounds : ℚ))
          ((Gif.srcH canvas o.screenBounds : ℚ)) = Gif.JSNum.inf := by
        rw [Gif.jsDiv, if_pos hshq,
          if_neg (by linarith : ¬((Gif.srcW canvas o.screenBounds : ℚ)) = 0),
          if_pos hswq]
      rw [outputDims_def, haspect, htarget]
      simp [Gif.jsGT, Gif.jsDivNum, Gif.jsRoundNum, Gif.zeroSize]

/-- Claim C6: an export captures exactly round(cycleDuration × 12) frames
(12 is the fixed output frame rate), the i-th frame at animation progress
t = i / frameCount; cycleDuration = 1.2 s yields exactly 14 frames. -/
theorem c6_frame_count_and_schedule (canvas : Gif.CanvasEl)
    (o : Gif.GifCaptureOptions) (ts : List ℚ)
    (hok : Gif.captureGifFrames canvas o = Except.ok ts) :
    Gif.TARGET_FPS = 12
    ∧ Gif.targetFrameCount o.cycleDuration = round (o.cycleDuration * 12)
    ∧ ts.length = (Gif.targetFrameCount o.cycleDuration).toNat
    ∧ (∀ (i : ℕ) (h : i < ts.length),
        ts.get ⟨i, h⟩
          = (i : ℚ) / (((Gif.targetFrameCount o.cycleDuration).toNat : ℕ) : ℚ))
    ∧ Gif.targetFrameCount (6 / 5) = 14 := by
  simp only [Gif.captureGifFrames] at hok
  have hts := captureLoop_ok_inv canvas (Gif.outputDims canvas o).1
    (Gif.outputDims canvas o).2 (Gif.targetFrameCount o.cycleDuration).toNat
    (List.range (Gif.targetFrameCount o.cycleDuration).toNat) ts hok
  refine ⟨rfl, rfl, ?_, ?_, ?_⟩
  · rw [hts]
    simp
  · intro i h
    subst hts
    simp
  · have h1 : ((6 : ℚ) / 5) * Gif.TARGET_FPS = 72 / 5 := by
      norm_num [Gif.TARGET_FPS]
    have h2 : (72 : ℚ) / 5 + 1 / 2 = 149 / 10 := by norm_num
    have h3 : ⌊(149 : ℚ) / 10⌋ = 14 := by
      rw [Int.floor_eq_iff]
      norm_num
    simp only [Gif.targetFrameCount, h1, round_eq, h2, h3]

theorem c6_frame_count_and_schedule_witness :
    (Gif.captureGifFrames ⟨100, 100⟩ ⟨10, 10, 1 / 12, none⟩
        = Except.ok [(0 : ℚ)])
    ∧ (Gif.targetFrameCount ((⟨10, 10, 1 / 12, none⟩ :
          Gif.GifCaptureOptions)).cycleDuration = round (((1 : ℚ) / 12) * 12)
      ∧ Gif.targetFrameCount (6 / 5) = 14) := by
  have hok : Gif.captureGifFrames ⟨100, 100⟩ ⟨10, 10, 1 / 12, none⟩
      = Except.ok [(0 : ℚ)] := by
    have hn : Gif.targetFrameCount ((1 : ℚ) / 12) = 1 := by
      norm_num [Gif.targetFrameCount, Gif.TARGET_FPS]
    simp only [Gif.captureGifFrames, hn, Int.toNat_one, List.range_succ,
      List.range_zero, List.nil_append]
    have hdim : Gif.outputDims ⟨100, 100⟩ ⟨10, 10, 1 / 12, none⟩
        = (Gif.JSNum.fin 10, Gif.JSNum.fin 10) := by
      rw [outputDims_def]
      norm_num [Gif.srcW, Gif.srcH, Gif.jsDiv, Gif.jsGT, Gif.jsMulNum,
        Gif.jsRoundNum]
    rw [hdim]
    norm_num [Gif.captureLoop, Gif.captureStep, Gif.zeroSize]
  have h := c6_frame_count_and_schedule ⟨100, 100⟩ ⟨10, 10, 1 / 12, none⟩
    [(0 : ℚ)] hok
  exact ⟨hok, h.2.1, h.2.2.2.2⟩

/-- Claim C9 (amended): provided at least one frame is to be captured
(target frame count ≥ 1), a degenerate source canvas or crop rectangle
(zero width or height) makes the capture fail with a capture error on the
first frame read-back, producing no frames. -/
theorem c9_degenerate_capture_error (canvas : Gif.CanvasEl)
    (o : Gif.GifCaptureOptions) (hw : 0 < o.width) (hh : 0 < o.height)
    (hn : 1 ≤ (Gif.targetFrameCount o.cycleDuration).toNat)
    (hdeg : canvas.width = 0 ∨ canvas.height = 0
      ∨ Gif.srcW canvas o.screenBounds = 0
      ∨ Gif.srcH canvas o.screenBounds = 0) :
    ∃ e, Gif.captureGifFrames canvas o = Except.error e := by
  obtain ⟨m, hm⟩ : ∃ m, (Gif.targetFrameCount o.cycleDuration).toNat = m + 1 :=
    ⟨(Gif.targetFrameCount o.cycleDuration).toNat - 1, by omega⟩
  have hcond : (canvas.width = 0 ∨ canvas.height = 0)
      ∨ (Gif.zeroSize (Gif.outputDims canvas o).1
          || Gif.zeroSize (Gif.outputDims canvas o).2) = true := by
    rcases hdeg with h | h | h | h
    · exact Or.inl (Or.inl h)
    · exact Or.inl (Or.inr h)
    · exact Or.inr (outputDims_degenerate canvas o hw hh (Or.inl h))
    · exact Or.inr (outputDims_degenerate canvas o hw hh (Or.inr h))
  obtain ⟨e, he⟩ := captureStep_err canvas (Gif.outputDims canvas o).1
    (Gif.outputDims canvas o).2
    (((0 : ℕ) : ℚ) / (((Gif.targetFrameCount o.cycleDuration).toNat : ℕ) : ℚ))
    hcond
  refine ⟨e, ?_⟩
  simp only [Gif.captureGifFrames]
  rw [hm, List.range_succ_eq_map]
  rw [← hm]
  exact captureLoop_first_error canvas _ _ _ 0 _ e he

theorem c9_degenerate_capture_error_witness :
    (0 < (⟨320, 240, 1, none⟩ : Gif.GifCaptureOptions).width
      ∧ 0 < (⟨320, 240, 1, none⟩ : Gif.GifCaptureOptions).height
      ∧ 1 ≤ (Gif.targetFrameCount
          ((⟨320, 240, 1, none⟩ : Gif.GifCaptureOptions)).cycleDuration).toNat
      ∧ (⟨0, 0⟩ : Gif.CanvasEl).width = 0)
    ∧ (∃ e, Gif.captureGifFrames ⟨0, 0⟩ ⟨320, 240, 1, none⟩
        = Except.error e) := by
  have hn : (Gif.targetFrameCount
      ((⟨320, 240, 1, none⟩ : Gif.GifCaptureOptions)).cycleDuration).toNat = 12 := by
    norm_num [Gif.targetFrameCount, Gif.TARGET_FPS, Int.toNat_ofNat]
    decide
  refine ⟨⟨by norm_num, by norm_num, by rw [hn]; norm_num, rfl⟩, ?_⟩
  exact c9_degenerate_capture_error ⟨0, 0⟩ ⟨320, 240, 1, none⟩
    (by norm_num) (by norm_num) (by rw [hn]; norm_num) (Or.inl rfl)

/-- Claim C9 as stated is false on the code: with a degenerate 0×0 source
canvas but a zero target frame count (cycleDuration 0), the capture raises
no error and succeeds with an empty frame list instead of failing fast
with a capture error. -/
theorem c9_counterexample :
    Gif.captureGifFrames ⟨0, 0⟩ ⟨320, 240, 0, none⟩ = Except.ok [] := by
  have hn : Gif.targetFrameCount (0 : ℚ) = 0 := by
    norm_num [Gif.targetFrameCount, Gif.TARGET_FPS]
  simp only [Gif.captureGifFrames, hn, Int.toNat_zero, List.range_zero,
    Gif.captureLoop]

/-! ### Lemmas about the nearest-palette-entry scan -/

lemma closestFold_spec (D : ℕ → ℕ) :
    ∀ (k m b : ℕ), b < m →
      ((closestFold D m k b).1 = b
        ∨ (m ≤ (closestFold D m k b).1 ∧ (closestFold D m k b).1 < m + k))
      ∧ D (closestFold D m k b).1 ≤ D b
      ∧ (∀ j, m ≤ j → j < m + k → D (closestFold D m k b).1 ≤ D j)
      ∧ ((closestFold D m k b).1 ≠ b → D (closestFold D m k b).1 < D b)
      ∧ (∀ j, m ≤ j → j < m + k → D j = D (closestFold D m k b).1 →
          (closestFold D m k b).1 ≤ j) := by
  intro k
  induction k with
  | zero =>
    intro m b hbm
    have hres : closestFold D m 0 b = (b, ((D b : ℕ) : WithTop ℕ)) := rfl
    rw [hres]
    refine ⟨Or.inl rfl, le_refl _, ?_, ?_, ?_⟩
    · intro j hj1 hj2; omega
    · intro h; exact absurd rfl h
    · intro j hj1 hj2; omega
  | succ k ih =>
    intro m b hbm
    have hrange : List.range' m (k + 1) = m :: List.range' (m + 1) k :=
      List.range'_succ m k 1
    by_cases hstep : ((D m : ℕ) : WithTop ℕ) < ((D b : ℕ) : WithTop ℕ)
    · have hDmb : D m < D b := by exact_mod_cast hstep
      have hunfold : closestFold D m (k + 1) b = closestFold D (m + 1) k m := by
        unfold closestFold
        rw [hrange, List.foldl_cons]
        congr 1
        simp only [closestStep, if_pos hstep]
      rw [hunfold]
      obtain ⟨h2, h3, h4, h5, h6⟩ := ih (m + 1) m (Nat.lt_succ_self m)
      refine ⟨?_, ?_, ?_, ?_, ?_⟩
      · right
        rcases h2 with h | h
        · omega
        · omega
      · exact le_of_lt (lt_of_le_of_lt h3 hDmb)
      · intro j hj1 hj2
        rcases Nat.eq_or_lt_of_le hj1 with hj | hj
        · rw [← hj]; exact h3
        · exact h4 j hj (by omega)
      · intro _
        exact lt_of_le_of_lt h3 hDmb
      · intro j hj1 hj2 hje
        rcases Nat.eq_or_lt_of_le hj1 with hj | hj
        · subst hj
          by_cases hr : (closestFold D (m + 1) k m).1 = m
          · omega
          · exact absurd hje.symm (ne_of_lt (h5 hr))
        · exact h6 j hj (by omega) hje
    · have hDbm : D b ≤ D m := by
        have := not_lt.mp hstep
        exact_mod_cast this
      have hunfold : closestFold D m (k + 1) b = closestFold D (m + 1) k b := by
        unfold closestFold
        rw [hrange, List.foldl_cons]
        congr 1
        simp only [closestStep, if_neg hstep]
      rw [hunfold]
      obtain ⟨h2, h3, h4, h5, h6⟩ := ih (m + 1) b (by omega)
      refine ⟨?_, h3, ?_, h5, ?_⟩
      · rcases h2 with h | h
        · exact Or.inl h
        · right; omega
      · intro j hj1 hj2
        rcases Nat.eq_or_lt_of_le hj1 with hj | hj
        · rw [← hj]
          exact le_trans h3 hDbm
        · exact h4 j hj (by omega)
      · intro j hj1 hj2 hje
        rcases Nat.eq_or_lt_of_le hj1 with hj | hj
        · subst hj
          by_cases hr : (closestFold D (m + 1) k b).1 = b
          · omega
          · have hlt := h5 hr
            have : D (closestFold D (m + 1) k b).1 ≤ D b := h3
            omega
        · exact h6 j hj (by omega) hje

lemma closestStep_top (D : ℕ → ℕ) (b i : ℕ) :
    closestStep D (b, (⊤ : WithTop ℕ)) i = (i, ((D i : ℕ) : WithTop ℕ)) := by
  unfold closestStep
  dsimp only
  simp [WithTop.coe_lt_top]

lemma findClosestColor_eq (r g b : ℕ) (palette : List Gif.RGB)
    (hlen : palette.length = 256) :
    Gif.findClosestColor r g b palette
      = (closestFold
          (fun i => Gif.colorDist r g b (palette.getD i ⟨0, 0, 0⟩)) 2 254 1).1 := by
  have hrange : List.range' 1 (palette.length - 1) = 1 :: List.range' 2 254 := by
    rw [hlen]
    decide
  show (List.foldl
      (closestStep (fun i => Gif.colorDist r g b (palette.getD i ⟨0, 0, 0⟩)))
      ((1 : ℕ), (⊤ : WithTop ℕ)) (List.range' 1 (palette.length - 1))).1
    = (closestFold (fun i => Gif.colorDist r g b (palette.getD i ⟨0, 0, 0⟩)) 2 254 1).1
  rw [hrange, List.foldl_cons, closestStep_top]
  rfl

lemma findClosestColor_spec (r g b : ℕ) (palette : List Gif.RGB)
    (hlen : palette.length = 256) :
    1 ≤ Gif.findClosestColor r g b palette
    ∧ Gif.findClosestColor r g b palette < 256
    ∧ (∀ j, 1 ≤ j → j < 256 →
        Gif.colorDist r g b
            (palette.getD (Gif.findClosestColor r g b palette) ⟨0, 0, 0⟩)
          ≤ Gif.colorDist r g b (palette.getD j ⟨0, 0, 0⟩))
    ∧ (∀ j, 1 ≤ j → j < 256 →
        Gif.colorDist r g b (palette.getD j ⟨0, 0, 0⟩)
          = Gif.colorDist r g b
              (palette.getD (Gif.findClosestColor r g b palette) ⟨0, 0, 0⟩) →
        Gif.findClosestColor r g b palette ≤ j) := by
  have heq := findClosestColor_eq r g b palette hlen
  set D := fun i => Gif.colorDist r g b (palette.getD i ⟨0, 0, 0⟩) with hD
  obtain ⟨h2, h3, h4, h5, h6⟩ := closestFold_spec D 254 2 1 (by omega)
  rw [heq]
  refine ⟨?_, ?_, ?_, ?_⟩
  · rcases h2 with h | h
    · omega
    · omega
  · rcases h2 with h | h
    · omega
    · omega
  · intro j hj1 hj2
    rcases Nat.eq_or_lt_of_le hj1 with hj | hj
    · rw [← hj]
      exact h3
    · exact h4 j hj (by omega)
  · intro j hj1 hj2 hje
    rcases Nat.eq_or_lt_of_le hj1 with hj | hj
    · subst hj
      by_cases hr : (closestFold D 2 254 1).1 = 1
      · omega
      · exact absurd hje.symm (ne_of_lt (h5 hr))
    · exact h6 j hj (by omega) hje

/-! ### Lemmas about the palette -/

lemma selectedColors_length (frames : List Gif.Frame) (ck : Gif.RGB) (thr : ℕ) :
    (Gif.selectedColors frames ck thr).length
      = min 255 (Gif.countColors frames ck thr).length := by
  unfold Gif.selectedColors
  rw [List.length_map, List.length_take, List.length_mergeSort]

lemma selectedColors_length_le (frames : List Gif.Frame) (ck : Gif.RGB)
    (thr : ℕ) : (Gif.selectedColors frames ck thr).length ≤ 255 := by
  rw [selectedColors_length]
  omega

lemma buildGlobalPalette_length (frames : List Gif.Frame) (ck : Gif.RGB)
    (thr : ℕ) : (Gif.buildGlobalPalette frames ck thr).length = 256 := by
  unfold Gif.buildGlobalPalette
  rw [List.length_append, List.length_replicate, List.length_cons]
  have := selectedColors_length_le frames ck thr
  omega

lemma buildGlobalPalette_getD_succ (frames : List Gif.Frame) (ck : Gif.RGB)
    (thr : ℕ) (s : ℕ) (hs : s < (Gif.selectedColors frames ck thr).length) :
    (Gif.buildGlobalPalette frames ck thr).getD (s + 1) ⟨0, 0, 0⟩
      = (Gif.selectedColors frames ck thr).getD s ⟨0, 0, 0⟩ := by
  unfold Gif.buildGlobalPalette
  rw [List.cons_append, List.getD_cons_succ, List.getD_append _ _ _ s hs]

lemma palette_getD_mem (frames : List Gif.Frame) (ck : Gif.RGB) (thr : ℕ)
    (idx : ℕ) (h1 : 1 ≤ idx)
    (h2 : idx < 1 + (Gif.selectedColors frames ck thr).length) :
    (Gif.buildGlobalPalette frames ck thr).getD idx ⟨0, 0, 0⟩
      ∈ Gif.selectedColors frames ck thr := by
  obtain ⟨s, rfl⟩ : ∃ s, idx = s + 1 := ⟨idx - 1, by omega⟩
  have hs : s < (Gif.selectedColors frames ck thr).length := by omega
  rw [buildGlobalPalette_getD_succ frames ck thr s hs,
    List.getD_eq_getElem _ _ hs]
  exact List.getElem_mem hs

lemma bump_mem_self (l : List (Gif.RGB × ℕ)) (c : Gif.RGB) :
    c ∈ (Gif.bump l c).map Prod.fst := by
  induction l with
  | nil => simp [Gif.bump]
  | cons hd rest ih =>
    obtain ⟨c', n⟩ := hd
    by_cases h : c' = c
    · simp [Gif.bump, h]
    · simp only [Gif.bump, if_neg h, List.map_cons, List.mem_cons]
      exact Or.inr ih

lemma bump_mem_mono (l : List (Gif.RGB × ℕ)) (c d : Gif.RGB)
    (h : d ∈ l.map Prod.fst) : d ∈ (Gif.bump l c).map Prod.fst := by
  induction l with
  | nil => simp at h
  | cons hd rest ih =>
    obtain ⟨c', n⟩ := hd
    by_cases hc : c' = c
    · simpa [Gif.bump, hc] using h
    · simp only [List.map_cons, List.mem_cons] at h
      simp only [Gif.bump, if_neg hc, List.map_cons, List.mem_cons]
      rcases h with h | h
      · exact Or.inl h
      · exact Or.inr (ih h)

lemma countFrame_mem_mono (ck : Gif.RGB) (thr : ℕ) (f : Gif.Frame) :
    ∀ (counts : List (Gif.RGB × ℕ)) (d : Gif.RGB),
      d ∈ counts.map Prod.fst →
      d ∈ (Gif.countFrame ck thr counts f).map Prod.fst := by
  induction f with
  | nil =>
    intro counts d h
    simpa [Gif.countFrame] using h
  | cons p rest ih =>
    intro counts d h
    by_cases hc : Gif.isChromaKey p ck thr = true
    · rw [Gif.countFrame, if_pos hc]
      exact ih counts d h
    · rw [Gif.countFrame, if_neg hc]
      exact ih _ d (bump_mem_mono counts _ d h)

lemma countFrame_mem_pixel (ck : Gif.RGB) (thr : ℕ) (f : Gif.Frame) :
    ∀ (counts : List (Gif.RGB × ℕ)) (p : Gif.Pixel), p ∈ f →
      Gif.isChromaKey p ck thr = false →
      (⟨p.r, p.g, p.b⟩ : Gif.RGB)
        ∈ (Gif.countFrame ck thr counts f).map Prod.fst := by
  induction f with
  | nil =>
    intro counts p hp _
    simp at hp
  | cons q rest ih =>
    intro counts p hp hck
    rcases List.mem_cons.mp hp with hpq | hp'
    · subst hpq
      rw [Gif.countFrame, if_neg (by simp [hck])]
      exact countFrame_mem_mono ck thr rest _ _ (bump_mem_self counts _)
    · by_cases hc : Gif.isChromaKey q ck thr = true
      · rw [Gif.countFrame, if_pos hc]
        exact ih counts p hp' hck
      · rw [Gif.countFrame, if_neg hc]
        exact ih _ p hp' hck

lemma countColors_foldl_mono (ck : Gif.RGB) (thr : ℕ) :
    ∀ (frames : List Gif.Frame) (counts : List (Gif.RGB × ℕ)) (d : Gif.RGB),
      d ∈ counts.map Prod.fst →
      d ∈ (frames.foldl
        (fun c f => Gif.countFrame ck thr c f) counts).map Prod.fst := by
  intro frames
  induction frames with
  | nil =>
    intro counts d h
    simpa using h
  | cons f rest ih =>
    intro counts d h
    simp only [List.foldl_cons]
    exact ih _ d (countFrame_mem_mono ck thr f counts d h)

lemma countColors_mem (frames : List Gif.Frame) (ck : Gif.RGB) (thr : ℕ)
    (frame : Gif.Frame) (p : Gif.Pixel) (hf : frame ∈ frames) (hp : p ∈ frame)
    (hck : Gif.isChromaKey p ck thr = false) :
    (⟨p.r, p.g, p.b⟩ : Gif.RGB)
      ∈ (Gif.countColors frames ck thr).map Prod.fst := by
  unfold Gif.countColors
  suffices h : ∀ (fs : List Gif.Frame) (counts : List (Gif.RGB × ℕ)),
      frame ∈ fs →
      (⟨p.r, p.g, p.b⟩ : Gif.RGB) ∈ (fs.foldl
        (fun c f => Gif.countFrame ck thr c f) counts).map Prod.fst by
    exact h frames [] hf
  intro fs
  induction fs with
  | nil =>
    intro counts h
    simp at h
  | cons f rest ih =>
    intro counts hmem
    rcases List.mem_cons.mp hmem with hq | hq
    · subst hq
      simp only [List.foldl_cons]
      exact countColors_foldl_mono ck thr rest _ _
        (countFrame_mem_pixel ck thr frame counts p hp hck)
    · simp only [List.foldl_cons]
      exact ih _ hq

lemma selectedColors_mem_of_small (frames : List Gif.Frame) (ck : Gif.RGB)
    (thr : ℕ) (hsmall : (Gif.countColors frames ck thr).length ≤ 255)
    (c : Gif.RGB) (hc : c ∈ (Gif.countColors frames ck thr).map Prod.fst) :
    c ∈ Gif.selectedColors frames ck thr := by
  unfold Gif.selectedColors
  have hperm := List.mergeSort_perm (Gif.countColors frames ck thr)
    (fun a b => b.2 ≤ a.2)
  obtain ⟨pair, hpair, hfst⟩ := List.mem_map.mp hc
  have hps : pair ∈ (Gif.countColors frames ck thr).mergeSort
      (fun a b => b.2 ≤ a.2) := hperm.mem_iff.mpr hpair
  have hlen : ((Gif.countColors frames ck thr).mergeSort
      (fun a b => b.2 ≤ a.2)).length ≤ 255 := by
    rw [List.length_mergeSort]
    exact hsmall
  rw [List.take_of_length_le hlen]
  exact List.mem_map.mpr ⟨pair, hps, hfst⟩

lemma colorDist_self (p : Gif.Pixel) :
    Gif.colorDist p.r p.g p.b (⟨p.r, p.g, p.b⟩ : Gif.RGB) = 0 := by
  simp [Gif.colorDist, Gif.chDist]

/-- Claim C7: the global palette has exactly 256 entries with index 0
exactly the chroma-key color; when indexing, every pixel within the
per-channel tolerance of the chroma key maps to index 0, and every other
pixel maps to the nearest palette entry among indices 1..255 by squared
Euclidean RGB distance, ties broken by the lowest index. -/
theorem c7_global_palette (frames : List Gif.Frame) (ck : Gif.RGB)
    (threshold : ℕ) (p : Gif.Pixel) (frame : Gif.Frame) :
    (Gif.buildGlobalPalette frames ck threshold).length = 256
    ∧ (Gif.buildGlobalPalette frames ck threshold).getD 0 ⟨0, 0, 0⟩ = ck
    ∧ (Gif.isChromaKey p ck threshold = true ↔
        (Gif.chDist p.r ck.r < threshold ∧ Gif.chDist p.g ck.g < threshold
          ∧ Gif.chDist p.b ck.b < threshold))
    ∧ (Gif.isChromaKey p ck threshold = true →
        Gif.indexPixel p (Gif.buildGlobalPalette frames ck threshold)
          ck threshold = 0)
    ∧ (Gif.isChromaKey p ck threshold = false →
        (1 ≤ Gif.indexPixel p (Gif.buildGlobalPalette frames ck threshold)
            ck threshold
          ∧ Gif.indexPixel p (Gif.buildGlobalPalette frames ck threshold)
              ck threshold < 256
          ∧ (∀ j, 1 ≤ j → j < 256 →
              Gif.colorDist p.r p.g p.b
                  ((Gif.buildGlobalPalette frames ck threshold).getD
                    (Gif.indexPixel p
                      (Gif.buildGlobalPalette frames ck threshold) ck threshold)
                    ⟨0, 0, 0⟩)
                ≤ Gif.colorDist p.r p.g p.b
                    ((Gif.buildGlobalPalette frames ck threshold).getD j
                      ⟨0, 0, 0⟩))
          ∧ (∀ j, 1 ≤ j → j < 256 →
              Gif.colorDist p.r p.g p.b
                  ((Gif.buildGlobalPalette frames ck threshold).getD j
                    ⟨0, 0, 0⟩)
                = Gif.colorDist p.r p.g p.b
                    ((Gif.buildGlobalPalette frames ck threshold).getD
                      (Gif.indexPixel p
                        (Gif.buildGlobalPalette frames ck threshold)
                        ck threshold) ⟨0, 0, 0⟩) →
              Gif.indexPixel p (Gif.buildGlobalPalette frames ck threshold)
                ck threshold ≤ j)))
    ∧ Gif.indexFrame frame (Gif.buildGlobalPalette frames ck threshold)
        ck threshold
      = frame.map (fun q =>
          Gif.indexPixel q (Gif.buildGlobalPalette frames ck threshold)
            ck threshold) := by
  have hlen := buildGlobalPalette_length frames ck threshold
  refine ⟨hlen, rfl, ?_, ?_, ?_, rfl⟩
  · simp [Gif.isChromaKey, and_assoc]
  · intro h
    simp [Gif.indexPixel, h]
  · intro h
    have hidx : Gif.indexPixel p (Gif.buildGlobalPalette frames ck threshold)
        ck threshold
        = Gif.findClosestColor p.r p.g p.b
            (Gif.buildGlobalPalette frames ck threshold) := by
      simp [Gif.indexPixel, h]
    rw [hidx]
    exact findClosestColor_spec p.r p.g p.b _ hlen

theorem c7_global_palette_witness :
    (Gif.isChromaKey ⟨10, 10, 10, 255⟩ ⟨0, 0, 0⟩ 5 = false)
    ∧ (Gif.buildGlobalPalette [[⟨10, 10, 10, 255⟩]] ⟨0, 0, 0⟩ 5).length = 256
    ∧ (Gif.buildGlobalPalette [[⟨10, 10, 10, 255⟩]] ⟨0, 0, 0⟩ 5).getD 0 ⟨0, 0, 0⟩
        = ⟨0, 0, 0⟩
    ∧ 1 ≤ Gif.indexPixel ⟨10, 10, 10, 255⟩
        (Gif.buildGlobalPalette [[⟨10, 10, 10, 255⟩]] ⟨0, 0, 0⟩ 5)
        ⟨0, 0, 0⟩ 5 := by
  have h := c7_global_palette [[⟨10, 10, 10, 255⟩]] ⟨0, 0, 0⟩ 5 ⟨10, 10, 10, 255⟩
    [⟨10, 10, 10, 255⟩]
  exact ⟨by decide, h.1, h.2.1, (h.2.2.2.2.1 (by decide)).1⟩

/-- Claim C8: the filler colors padding the palette's unused trailing
slots are never referenced: for every pixel of every captured frame, the
assigned palette index is 0 (chroma key) or the index of one of the
actually selected most-frequent colors, never a padding slot. -/
theorem c8_filler_never_referenced (frames : List Gif.Frame) (ck : Gif.RGB)
    (threshold : ℕ) (frame : Gif.Frame) (p : Gif.Pixel)
    (hf : frame ∈ frames) (hp : p ∈ frame) :
    Gif.indexPixel p (Gif.buildGlobalPalette frames ck threshold)
        ck threshold = 0
    ∨ (1 ≤ Gif.indexPixel p (Gif.buildGlobalPalette frames ck threshold)
          ck threshold
        ∧ Gif.indexPixel p (Gif.buildGlobalPalette frames ck threshold)
            ck threshold
          < 1 + (Gif.selectedColors frames ck threshold).length
        ∧ (Gif.buildGlobalPalette frames ck threshold).getD
            (Gif.indexPixel p (Gif.buildGlobalPalette frames ck threshold)
              ck threshold) ⟨0, 0, 0⟩
          ∈ Gif.selectedColors frames ck threshold) := by
  have hlen := buildGlobalPalette_length frames ck threshold
  by_cases hck : Gif.isChromaKey p ck threshold = true
  · left
    simp [Gif.indexPixel, hck]
  · right
    have hckf : Gif.isChromaKey p ck threshold = false := by
      simpa using hck
    have hidx : Gif.indexPixel p (Gif.buildGlobalPalette frames ck threshold)
        ck threshold
        = Gif.findClosestColor p.r p.g p.b
            (Gif.buildGlobalPalette frames ck threshold) := by
      simp [Gif.indexPixel, hckf]
    obtain ⟨hge1, hlt256, hnear, hties⟩ :=
      findClosestColor_spec p.r p.g p.b
        (Gif.buildGlobalPalette frames ck threshold) hlen
    rw [hidx]
    rcases le_or_lt 255 (Gif.countColors frames ck threshold).length with
      hbig | hsmall
    · have hL : (Gif.selectedColors frames ck threshold).length = 255 := by
        rw [selectedColors_length]
        omega
      refine ⟨hge1, by omega, ?_⟩
      exact palette_getD_mem frames ck threshold _ hge1 (by omega)
    · have hsmall' : (Gif.countColors frames ck threshold).length ≤ 255 := by
        omega
      have hL : (Gif.selectedColors frames ck threshold).length
          = (Gif.countColors frames ck threshold).length := by
        rw [selectedColors_length]
        omega
      have hcmem : (⟨p.r, p.g, p.b⟩ : Gif.RGB)
          ∈ Gif.selectedColors frames ck threshold :=
        selectedColors_mem_of_small frames ck threshold hsmall' _
          (countColors_mem frames ck threshold frame p hf hp hckf)
      obtain ⟨s, hs, hseq⟩ := List.getElem_of_mem hcmem
      have hpal : (Gif.buildGlobalPalette frames ck threshold).getD (s + 1)
          ⟨0, 0, 0⟩ = ⟨p.r, p.g, p.b⟩ := by
        rw [buildGlobalPalette_getD_succ frames ck threshold s hs,
          List.getD_eq_getElem _ _ hs, hseq]
      have hDzero : Gif.colorDist p.r p.g p.b
          ((Gif.buildGlobalPalette frames ck threshold).getD (s + 1)
            ⟨0, 0, 0⟩) = 0 := by
        rw [hpal]
        exact colorDist_self p
      have hs256 : s + 1 < 256 := by
        have := selectedColors_length_le frames ck threshold
        omega
      have hDr : Gif.colorDist p.r p.g p.b
          ((Gif.buildGlobalPalette frames ck threshold).getD
            (Gif.findClosestColor p.r p.g p.b
              (Gif.buildGlobalPalette frames ck threshold)) ⟨0, 0, 0⟩) = 0 := by
        have := hnear (s + 1) (by omega) hs256
        omega
      have hle : Gif.findClosestColor p.r p.g p.b
          (Gif.buildGlobalPalette frames ck threshold) ≤ s + 1 := by
        apply hties (s + 1) (by omega) hs256
        rw [hDzero, hDr]
      refine ⟨hge1, by omega, ?_⟩
      exact palette_getD_mem frames ck threshold _ hge1 (by omega)

theorem c8_filler_never_referenced_witness :
    ((⟨10, 10, 10, 255⟩ : Gif.Pixel) ∈ ([⟨10, 10, 10, 255⟩] : Gif.Frame)
      ∧ ([⟨10, 10, 10, 255⟩] : Gif.Frame) ∈ [[(⟨10, 10, 10, 255⟩ : Gif.Pixel)]])
    ∧ (Gif.indexPixel ⟨10, 10, 10, 255⟩
          (Gif.buildGlobalPalette [[⟨10, 10, 10, 255⟩]] ⟨0, 0, 0⟩ 5)
          ⟨0, 0, 0⟩ 5 = 0
      ∨ (1 ≤ Gif.indexPixel ⟨10, 10, 10, 255⟩
            (Gif.buildGlobalPalette [[⟨10, 10, 10, 255⟩]] ⟨0, 0, 0⟩ 5)
            ⟨0, 0, 0⟩ 5
          ∧ Gif.indexPixel ⟨10, 10, 10, 255⟩
              (Gif.buildGlobalPalette [[⟨10, 10, 10, 255⟩]] ⟨0, 0, 0⟩ 5)
              ⟨0, 0, 0⟩ 5
            < 1 + (Gif.selectedColors [[⟨10, 10, 10, 255⟩]] ⟨0, 0, 0⟩ 5).length
          ∧ (Gif.buildGlobalPalette [[⟨10, 10, 10, 255⟩]] ⟨0, 0, 0⟩ 5).getD
              (Gif.indexPixel ⟨10, 10, 10, 255⟩
                (Gif.buildGlobalPalette [[⟨10, 10, 10, 255⟩]] ⟨0, 0, 0⟩ 5)
                ⟨0, 0, 0⟩ 5) ⟨0, 0, 0⟩
            ∈ Gif.selectedColors [[⟨10, 10, 10, 255⟩]] ⟨0, 0, 0⟩ 5)) := by
  refine ⟨⟨by decide, by decide⟩, ?_⟩
  exact c8_filler_never_referenced [[⟨10, 10, 10, 255⟩]] ⟨0, 0, 0⟩ 5
    [⟨10, 10, 10, 255⟩] ⟨10, 10, 10, 255⟩ (by decide) (by decide)
